import Mathlib

/-!
Verification development for a three-lambda PR risk-governance system:
a gateway classifier (GitHub-PR-Risk-Reviewer), a workflow controller
(PR-Agent-Brain-Simple) and an action executor (PR-Agent-GitHub-Writer).
The Python sources are shallowly embedded: text is `List Char`, external
collaborator calls are oracles supplied through environment records, and
side effects are collected into lists.  Regular-expression searches from
the source are embedded as executable scanners with the same
leftmost-match and backtracking behaviour on the character classes the
patterns use.
-/

namespace Txt

/-- Whitespace test mirroring the regex class backslash-s on ASCII text
(space, tab, newline, carriage return, vertical tab, form feed). -/
def isWS (c : Char) : Bool :=
  c = ' ' || c = '\t' || c = '\n' || c = '\r' || c = '\x0b' || c = '\x0c'

/-- Word-character test mirroring the regex class backslash-w
(ASCII letters, digits, underscore). -/
def isWordChar (c : Char) : Bool :=
  (('a' ≤ c && c ≤ 'z') || ('A' ≤ c && c ≤ 'Z') || ('0' ≤ c && c ≤ '9') || c = '_')

/-- ASCII lower-casing of one character, mirroring Python str.lower on the
ASCII range the commands use. -/
def lowerC (c : Char) : Char :=
  if 'A' ≤ c && c ≤ 'Z' then Char.ofNat (c.toNat + 32) else c

/-- ASCII upper-casing of one character, mirroring Python str.upper. -/
def upperC (c : Char) : Char :=
  if 'a' ≤ c && c ≤ 'z' then Char.ofNat (c.toNat - 32) else c

def lowerL (s : List Char) : List Char := s.map lowerC

def upperL (s : List Char) : List Char := s.map upperC

/-- Case-insensitive character equality used when a Python regex carries
re.IGNORECASE. -/
def eqCI (a b : Char) : Bool := lowerC a = lowerC b

/-- Does `pat` start `s`, comparing case-insensitively. -/
def startsCI : List Char → List Char → Bool
  | [], _ => true
  | _ :: _, [] => false
  | p :: ps, c :: cs => eqCI p c && startsCI ps cs

/-- Substring containment, mirroring the Python `in` operator on str. -/
def containsSub (needle : List Char) : List Char → Bool
  | [] => needle.isPrefixOf []
  | c :: rest => needle.isPrefixOf (c :: rest) || containsSub needle rest

/-- Case-insensitive substring search returning the suffix that starts at
the first match, mirroring re.search of a literal with re.IGNORECASE. -/
def findCI (needle : List Char) : List Char → Option (List Char)
  | [] => if startsCI needle [] then some [] else none
  | c :: rest =>
    if startsCI needle (c :: rest) then some (c :: rest)
    else findCI needle rest

/-- Strip ASCII whitespace from both ends, mirroring Python str.strip. -/
def stripWS (s : List Char) : List Char :=
  ((s.dropWhile isWS).reverse.dropWhile isWS).reverse

/-- Helper of `splitWS`: `acc` holds the reversed current word. -/
def splitWSAux : List Char → List Char → List (List Char)
  | acc, [] => if acc.isEmpty then [] else [acc.reverse]
  | acc, c :: rest =>
    if isWS c then
      if acc.isEmpty then splitWSAux [] rest
      else acc.reverse :: splitWSAux [] rest
    else splitWSAux (c :: acc) rest

/-- Split on whitespace runs dropping empty pieces, mirroring Python
str.split with no argument. -/
def splitWS (s : List Char) : List (List Char) := splitWSAux [] s

/-- Occurrence of `kw` at the very start of `s` bounded on the right by
whitespace or end of text: the piece `kw(?:\s|$)` of the gateway keyword
regex, checked at one position. -/
def wordFrom (kw s : List Char) : Bool :=
  kw.isPrefixOf s &&
    (match s.drop kw.length with
     | [] => true
     | c :: _ => isWS c)

/-- Occurrence of `kw` somewhere after a whitespace character. -/
def hasWordAfterWS (kw : List Char) : List Char → Bool
  | [] => false
  | c :: rest => (isWS c && wordFrom kw rest) || hasWordAfterWS kw rest

/-- Whole-word occurrence of `kw` in `s`: the regex
`(?:^|\s)kw(?:\s|$)` used by the gateway for code-change verbs
(lambda_function.py of GitHub-PR-Risk-Reviewer, line 156). -/
def hasWholeWord (kw s : List Char) : Bool :=
  wordFrom kw s || hasWordAfterWS kw s

end Txt

namespace Gateway

open Txt

/-- The code-change verbs of the gateway router
(`code_change_keywords`, line 147). -/
def code_change_keywords : List (List Char) :=
  [("update").toList, ("modify").toList, ("change").toList, ("fix").toList,
   ("edit").toList, ("rewrite").toList, ("replace").toList]

/-- `has_delete` of the router (line 142): a delete or remove word plus a
branch word, by plain substring containment on the lowered text. -/
def has_delete (t : List Char) : Bool :=
  (containsSub (("delete").toList) t || containsSub (("remove").toList) t) &&
    (containsSub (("branch").toList) t || containsSub (("branches").toList) t)

/-- `has_create` of the router (line 143). -/
def has_create (t : List Char) : Bool :=
  containsSub (("create").toList) t &&
    (containsSub (("branch").toList) t || containsSub (("named").toList) t)

/-- `has_list` of the router (line 144). -/
def has_list (t : List Char) : Bool :=
  (containsSub (("list").toList) t || containsSub (("show").toList) t) &&
    containsSub (("branch").toList) t

/-- `has_code_change` of the router (lines 151-158): some code-change verb
occurs as a whole word bounded by start-of-text/whitespace and
whitespace/end-of-text. -/
def has_code_change (t : List Char) : Bool :=
  code_change_keywords.any (fun kw => hasWholeWord kw t)

/-- The bulk-delete guard of the router (line 214). -/
def is_bulk_delete (t : List Char) : Bool :=
  containsSub (("delete").toList) t && containsSub (("all").toList) t &&
    (containsSub (("branch").toList) t || containsSub (("branches").toList) t)

/-- The tagged intents of the specification data model. -/
inductive Intent where
  | CompoundCreateAndChange
  | CodeChange
  | BulkDelete
  | DeleteBranches
  | CreateBranch
  | ListBranches
  | Unclassified
  deriving DecidableEq, Repr

/-- The router decision chain of the gateway mention handler
(lines 161-292), summarised as an intent classifier: the input is the raw
comment body, which the handler lower-cases before every test. -/
def classify (body : List Char) : Intent :=
  let t := lowerL body
  if has_create t && has_code_change t then .CompoundCreateAndChange
  else if has_code_change t then .CodeChange
  else if is_bulk_delete t then .BulkDelete
  else if has_delete t then .DeleteBranches
  else if has_create t then .CreateBranch
  else if has_list t then .ListBranches
  else .Unclassified

end Gateway

namespace Txt

/-- Name-character class `[a-zA-Z0-9\-_]` of the branch-name captures. -/
def isNameChar (c : Char) : Bool :=
  (('a' ≤ c && c ≤ 'z') || ('A' ≤ c && c ≤ 'Z') || ('0' ≤ c && c ≤ '9') ||
    c = '-' || c = '_')

/-- Consume a maximal whitespace run followed by a literal word: the piece
`\s+word` of the extraction regexes.  Returns the remainder on success.
The whitespace run is maximal and the word starts with a non-whitespace
character, so no further backtracking inside the piece is possible. -/
def eatWSWord (w s : List Char) : Option (List Char) :=
  let ws := s.takeWhile isWS
  if ws.isEmpty then none
  else
    let rest := s.drop ws.length
    if w.isPrefixOf rest then some (rest.drop w.length) else none

/-- Consume a maximal whitespace run (at least one character): the final
`\s+` before a capture. -/
def eatWS (s : List Char) : Option (List Char) :=
  let ws := s.takeWhile isWS
  if ws.isEmpty then none else some (s.drop ws.length)

end Txt

namespace Gateway

open Txt

/-- One attempt of the tail of the create-name regex
`create(?:\s+a)?(?:\s+branch)?(?:\s+named)?\s+([a-zA-Z0-9\-_]+)` at a
fixed position just after `create`, with a fixed choice of which optional
groups participate.  Returns the capture. -/
def createTailAttempt (useA useBranch useNamed : Bool) (s : List Char) :
    Option (List Char) :=
  let s1 := if useA then eatWSWord (("a").toList) s else some s
  match s1 with
  | none => none
  | some s1 =>
    let s2 := if useBranch then eatWSWord (("branch").toList) s1 else some s1
    match s2 with
    | none => none
    | some s2 =>
      let s3 := if useNamed then eatWSWord (("named").toList) s2 else some s2
      match s3 with
      | none => none
      | some s3 =>
        match eatWS s3 with
        | none => none
        | some s4 =>
          let name := s4.takeWhile isNameChar
          if name.isEmpty then none else some name

/-- The greedy backtracking order of three optional groups: each group
prefers to match, outer groups backtrack last. -/
def optCombos : List (Bool × Bool × Bool) :=
  [(true, true, true), (true, true, false), (true, false, true),
   (true, false, false), (false, true, true), (false, true, false),
   (false, false, true), (false, false, false)]

/-- Try the create-name regex tail at one position, over all backtracking
choices of the optional groups in preference order. -/
def createTailAt (s : List Char) : Option (List Char) :=
  (optCombos.map (fun c => createTailAttempt c.1 c.2.1 c.2.2 s)).foldr
    (fun o acc => o.orElse (fun _ => acc)) none

/-- Leftmost search of
`create(?:\s+a)?(?:\s+branch)?(?:\s+named)?\s+([a-zA-Z0-9\-_]+)`
(gateway lines 172 and 260): scan suffixes, at each occurrence of the
literal `create` try the tail. -/
def searchCreateName : List Char → Option (List Char)
  | [] => none
  | c :: rest =>
    if ("create").toList.isPrefixOf (c :: rest) then
      match createTailAt ((c :: rest).drop 6) with
      | some name => some name
      | none => searchCreateName rest
    else searchCreateName rest

/-- Leftmost search of `create\s+([a-zA-Z0-9\-_]+)\s+branch`
(gateway lines 176 and 267), used when the first capture was the word
`branch` itself. -/
def searchCreateSuffixName : List Char → Option (List Char)
  | [] => none
  | c :: rest =>
    (if ("create").toList.isPrefixOf (c :: rest) then
      match eatWS ((c :: rest).drop 6) with
      | none => none
      | some s1 =>
        let name := s1.takeWhile isNameChar
        if name.isEmpty then none
        else
          match eatWSWord (("branch").toList) (s1.drop name.length) with
          | some _ => some name
          | none => none
    else none).orElse (fun _ => searchCreateSuffixName rest)

/-- Python `str.isalnum` on the ASCII range of branch names. -/
def isAlnum (c : Char) : Bool :=
  (('a' ≤ c && c ≤ 'z') || ('A' ≤ c && c ≤ 'Z') || ('0' ≤ c && c ≤ '9'))

/-- Branch-name sanitisation (gateway lines 184 and 273): keep
alphanumerics, hyphen and underscore. -/
def sanitize (s : List Char) : List Char :=
  s.filter (fun c => isAlnum c || c = '-' || c = '_')

/-- Branch-name extraction of the compound and fast-path create branches
(gateway lines 168-184 and 253-273): run the main regex; if it captured
the literal word `branch`, retry with the suffix pattern; fall back to
`dflt`; sanitize the result. -/
def extract_branch (user_text dflt : List Char) : List Char :=
  let name :=
    match searchCreateName user_text with
    | some extracted =>
      if lowerL extracted = ("branch").toList then
        match searchCreateSuffixName user_text with
        | some n => n
        | none => dflt
      else extracted
    | none => dflt
  sanitize name

end Gateway

example : Gateway.extract_branch (("create test-v1 branch and update x").toList)
    (("ai-branch-compound").toList) = ("test-v1").toList := by decide

example : Gateway.extract_branch (("create branch fix-1").toList)
    (("d").toList) = ("fix-1").toList := by decide

example : Gateway.extract_branch (("create branch").toList)
    (("ai-branch-7").toList) = ("ai-branch-7").toList := by decide

example : Gateway.classify (("create test-v1 branch and update services/x.py").toList)
    = Gateway.Intent.CompoundCreateAndChange := by decide

/-- A computation that issues calls to external collaborators (collected
in order into `eff`) and either returns a value or raises a Python
exception carrying a message.  Effects issued before a raise are kept:
they model side effects already performed. -/
structure Proc (ε : Type) (α : Type) where
  eff : List ε
  res : Except (List Char) α
  deriving Repr

def Proc.pure {ε α : Type} (a : α) : Proc ε α := ⟨[], .ok a⟩

def Proc.bind {ε α β : Type} (x : Proc ε α) (f : α → Proc ε β) : Proc ε β :=
  match x.res with
  | .ok a => ⟨x.eff ++ (f a).eff, (f a).res⟩
  | .error e => ⟨x.eff, .error e⟩

instance {ε : Type} : Monad (Proc ε) where
  pure := Proc.pure
  bind := Proc.bind

/-- Issue one call. -/
def Proc.emit {ε : Type} (e : ε) : Proc ε Unit := ⟨[e], .ok ()⟩

/-- Raise an exception. -/
def Proc.raise {ε α : Type} (msg : List Char) : Proc ε α := ⟨[], .error msg⟩

/-- Python try/except: run `x`; on an exception run `h` on its message.
Effects already issued by `x` are kept. -/
def Proc.tryCatch {ε α : Type} (x : Proc ε α) (h : List Char → Proc ε α) :
    Proc ε α :=
  match x.res with
  | .ok _ => x
  | .error e => ⟨x.eff ++ (h e).eff, (h e).res⟩

/-- Lift an oracle answer: an exception in the answer propagates. -/
def Proc.fromExcept {ε α : Type} (x : Except (List Char) α) : Proc ε α :=
  ⟨[], x⟩

@[simp] theorem Proc.bind_eff {ε α β : Type} (x : Proc ε α) (f : α → Proc ε β) :
    (Proc.bind x f).eff =
      match x.res with
      | .ok a => x.eff ++ (f a).eff
      | .error _ => x.eff := by
  unfold Proc.bind; cases x.res <;> rfl

@[simp] theorem Proc.bind_res {ε α β : Type} (x : Proc ε α) (f : α → Proc ε β) :
    (Proc.bind x f).res =
      match x.res with
      | .ok a => (f a).res
      | .error e => .error e := by
  unfold Proc.bind; cases x.res <;> rfl

/-- An HTTP-like response value: Python result dicts carry a status code
and an optional body text (modelled as possibly empty). -/
structure Res where
  statusCode : Nat
  body : List Char
  deriving DecidableEq, Repr

example : Gateway.classify (("fix-1").toList) = Gateway.Intent.Unclassified := by decide

namespace Txt

/-- First occurrence split: `some (before, after)` around the first
occurrence of `sep` (assumed non-empty), else `none`. -/
def findSplit (sep : List Char) : List Char → Option (List Char × List Char)
  | [] => none
  | c :: rest =>
    if sep.isPrefixOf (c :: rest) then some ([], (c :: rest).drop sep.length)
    else
      match findSplit sep rest with
      | some (p, q) => some (c :: p, q)
      | none => none

/-- Fuelled worker for `splitOnSub`. -/
def splitOnSubAux (sep : List Char) : Nat → List Char → List (List Char)
  | 0, s => [s]
  | f + 1, s =>
    match findSplit sep s with
    | none => [s]
    | some (p, q) => p :: splitOnSubAux sep f q

/-- Python `str.split(sep)` for a non-empty separator. -/
def splitOnSub (sep s : List Char) : List (List Char) :=
  splitOnSubAux sep (s.length + 1) s

/-- Python `str.replace(a, b)` for single characters. -/
def replaceC (a b : Char) (s : List Char) : List Char :=
  s.map (fun c => if c = a then b else c)

/-- Python `str.replace(a, '')` for a single character. -/
def dropC (a : Char) (s : List Char) : List Char :=
  s.filter (fun c => c ≠ a)

end Txt

namespace Gateway

open Txt

/-- The alternation of the stopword-removal regex
`\b(pr-agent|delete|remove|branch|branches|the)\b` of
`extract_branch_names` (line 347), in alternation order. -/
def stopwords : List (List Char) :=
  [("pr-agent").toList, ("delete").toList, ("remove").toList,
   ("branch").toList, ("branches").toList, ("the").toList]

/-- Right word-boundary after a removed word: end of text or a non-word
character. -/
def rbOK : List Char → Bool
  | [] => true
  | c :: _ => !isWordChar c

/-- Try to match one stopword at the current position (alternatives in
order); requires the right boundary.  Returns the remainder. -/
def tryStopword (s : List Char) : Option (List Char) :=
  (stopwords.filterMap (fun w =>
    if w.isPrefixOf s && rbOK (s.drop w.length) then some (s.drop w.length)
    else none)).head?

/-- Fuelled worker for stopword removal: `prev` is the character of the
original text just before the current position, for the left boundary
check of `\b`. -/
def rmStopwordsAux : Nat → Option Char → List Char → List Char
  | 0, _, s => s
  | _ + 1, _, [] => []
  | f + 1, prev, c :: rest =>
    let leftOK := match prev with
      | none => true
      | some p => !isWordChar p
    if leftOK then
      match tryStopword (c :: rest) with
      | some rem =>
        rmStopwordsAux f (some (((c :: rest).take ((c :: rest).length - rem.length)).getLastD c)) rem
      | none => c :: rmStopwordsAux f (some c) rest
    else c :: rmStopwordsAux f (some c) rest

/-- The stopword-removal substitution of `extract_branch_names`. -/
def rmStopwords (s : List Char) : List Char :=
  rmStopwordsAux (s.length + 1) none s

/-- `extract_branch_names` (gateway lines 341-352): remove stopwords at
word boundaries, drop `@`, turn commas into spaces, split on whitespace
and keep tokens longer than two characters; fall back to a sentinel. -/
def extract_branch_names (text : List Char) : List (List Char) :=
  let t := rmStopwords text
  let t := replaceC ',' ' ' (dropC '@' t)
  let branches := (splitWS t).filter (fun b => 2 < b.length)
  if branches.isEmpty then [("unknown-branch").toList] else branches

/-- Keep-list parsing of the gateway bulk-delete branch (lines 216-224):
start from main and master; if the text contains `except`, extend with
the comma/whitespace-separated tokens of the text portion between the
first and second occurrence of `except`. -/
def bulk_keep_branches (user_text : List Char) : List (List Char) :=
  let base := [("main").toList, ("master").toList]
  if containsSub (("except").toList) user_text then
    let except_part := (splitOnSub (("except").toList) user_text).getD 1 []
    base ++ splitWS (replaceC ',' ' ' except_part)
  else base

end Gateway

example : Gateway.extract_branch_names (("@pr-agent delete the branches fix-1, fix-2").toList)
    = [("fix-1").toList, ("fix-2").toList] := by decide

example : Gateway.bulk_keep_branches (("delete all branches except dev, staging").toList)
    = [("main").toList, ("master").toList, ("dev").toList, ("staging").toList] := by decide

example : Gateway.classify (("branchfix-1").toList) = Gateway.Intent.Unclassified := by decide

example : Gateway.classify (("please fix the bug in x").toList) = Gateway.Intent.CodeChange := by decide

namespace Txt

/-- Fuelled decimal printer worker. -/
def natToStrAux : Nat → Nat → List Char → List Char
  | 0, _, acc => acc
  | f + 1, n, acc =>
    if n < 10 then Char.ofNat (48 + n) :: acc
    else natToStrAux f (n / 10) (Char.ofNat (48 + n % 10) :: acc)

/-- Decimal rendering of a natural number, mirroring Python str(int). -/
def natToStr (n : Nat) : List Char :=
  natToStrAux (n + 1) n []

/-- Python str of a possibly absent number: `str(None)` is `None`. -/
def pyStrOptNat : Option Nat → List Char
  | some n => natToStr n
  | none => ("None").toList

/-- Join with a separator, mirroring Python str.join. -/
def joinSep (sep : List Char) : List (List Char) → List Char
  | [] => []
  | [x] => x
  | x :: y :: rest => x ++ sep ++ joinSep sep (y :: rest)

/-- Python `a or b` on optional numbers, with 0 falsy. -/
def pyOrNat (a b : Option Nat) : Option Nat :=
  match a with
  | some n => if n = 0 then b else some n
  | none => b

end Txt

namespace Gateway

open Txt

/-- The `pull_request` object fields the gateway consumes. -/
structure GPR where
  number : Option Nat
  headSha : Option (List Char)
  deriving DecidableEq, Repr

/-- The payload shape sent to the controller lambda by `trigger_brain`. -/
structure BrainPayload where
  repo_full_name : List Char
  pr_number : List Char
  user_message : Option (List Char)
  user_comment : Option (List Char)
  sender_name : List Char
  is_pull_request : Bool
  is_automatic_trigger : Bool
  commit_sha : Option (List Char)
  deriving DecidableEq, Repr

/-- Calls the gateway issues to the outside world. -/
inductive GEffect where
  | createAutoPR (repo branch : List Char)
  | createBranch (repo branch base : List Char)
  | postComment (repo num text : List Char)
  | bulkDelete (repo : List Char) (keep : List (List Char)) (num : List Char)
  | deleteBranch (repo branch : List Char)
  | invokeBrain (p : BrainPayload)
  deriving DecidableEq, Repr

/-- Oracle outcomes of the gateway's external calls: `prExists` models
`check_pr_exists` (which swallows its own errors and returns a Bool) and
`call` the boto lambda invocations, which may raise. -/
structure GEnv where
  prExists : List Char → Bool
  call : GEffect → Except (List Char) Unit

/-- Issue one boto lambda invocation: the call is recorded, then its
outcome consulted; a raising invocation propagates. -/
def invokeG (env : GEnv) (e : GEffect) : Proc GEffect Unit := do
  Proc.emit e
  Proc.fromExcept (env.call e)

/-- `trigger_writer_direct_branch` (gateway lines 299-323). -/
def trigger_writer_direct_branch (env : GEnv) (repo num branch : List Char) :
    Proc GEffect Unit := do
  invokeG env (.createBranch repo branch (("main").toList))
  invokeG env (.postComment repo num
    (("✅ I\x27ve created the branch `").toList ++ branch ++ ("` directly for you.").toList))

/-- `post_thinking_status` (gateway lines 329-339). -/
def post_thinking_status (env : GEnv) (repo num msg : List Char) :
    Proc GEffect Unit :=
  invokeG env (.postComment repo num msg)

/-- `trigger_brain` (gateway lines 325-327). -/
def trigger_brain (env : GEnv) (p : BrainPayload) : Proc GEffect Unit :=
  invokeG env (.invokeBrain p)

/-- `trigger_writer_delete_branches` (gateway lines 354-382). -/
def trigger_writer_delete_branches (env : GEnv) (repo num : List Char)
    (branches : List (List Char)) : Proc GEffect Unit := do
  branches.foldl (fun acc b => do acc; invokeG env (.deleteBranch repo b))
    (Proc.pure ())
  invokeG env (.postComment repo num
    (("✅ Deleted branch(es): ").toList ++
      joinSep ((", ").toList) (branches.map (fun b => ('`' :: b) ++ [('`')]))))

/-- The inbound webhook event, after JSON parsing, restricted to the
fields the gateway reads. -/
structure GEvent where
  hasRepository : Bool
  repo : List Char
  commentBody : List Char
  sender : List Char
  issueNumber : Option Nat
  ref : Option (List Char)
  hasAfter : Bool
  pullRequest : Option GPR
  action : List Char
  deriving DecidableEq, Repr

/-- The body of the gateway `lambda_handler` (lines 88-294), inside its
top-level try. -/
def gateway_body (ev : GEvent) (env : GEnv) : Proc GEffect Res :=
  if !ev.hasRepository then Proc.pure ⟨200, []⟩
  else
    let user_text := lowerL ev.commentBody
    let item_number := pyOrNat ev.issueNumber (ev.pullRequest.bind (fun p => p.number))
    if ev.ref.isSome && ev.hasAfter && ev.pullRequest.isNone then
      match ev.ref with
      | none => Proc.pure ⟨200, ("Push Processed").toList⟩
      | some r =>
        if ("refs/heads/").toList.isPrefixOf r &&
            !(("/main").toList.isSuffixOf r) && !(("/master").toList.isSuffixOf r) then do
          let branch := r.drop 11
          if !env.prExists branch then Proc.emit (.createAutoPR ev.repo branch)
          else Proc.pure ()
          Proc.pure ⟨200, ("Push Processed").toList⟩
        else Proc.pure ⟨200, ("Push Processed").toList⟩
    else if ev.pullRequest.isSome &&
        (ev.action = ("opened").toList || ev.action = ("synchronize").toList ||
          ev.action = ("reopened").toList) then
      match ev.pullRequest with
      | none => Proc.pure ⟨200, []⟩
      | some pr => do
        post_thinking_status env ev.repo (pyStrOptNat pr.number)
          (("⏳ **Risk Analysis: Analyzing...**").toList)
        trigger_brain env
          { repo_full_name := ev.repo, pr_number := pyStrOptNat pr.number,
            user_message := some (("Context: Automatic Risk Analysis Trigger (Strict Analysis)").toList),
            user_comment := none, sender_name := ev.sender,
            is_pull_request := true, is_automatic_trigger := true,
            commit_sha := pr.headSha }
        Proc.pure ⟨200, ("Auto-Analysis Triggered").toList⟩
    else if containsSub (("@pr-agent").toList) user_text then
      if has_create user_text && has_code_change user_text then do
        let branch_name := extract_branch user_text (("ai-branch-compound").toList)
        trigger_writer_direct_branch env ev.repo (pyStrOptNat item_number) branch_name
        post_thinking_status env ev.repo (pyStrOptNat item_number)
          (("⏳ **Analyzing code changes with Gemini 2.0...**").toList)
        trigger_brain env
          { repo_full_name := ev.repo, pr_number := pyStrOptNat item_number,
            user_message := none, user_comment := some user_text,
            sender_name := ev.sender, is_pull_request := true,
            is_automatic_trigger := false, commit_sha := none }
        Proc.pure ⟨200, []⟩
      else if has_code_change user_text then do
        post_thinking_status env ev.repo (pyStrOptNat item_number)
          (("⏳ **Analyzing Risk with Gemini 2.0...**").toList)
        trigger_brain env
          { repo_full_name := ev.repo, pr_number := pyStrOptNat item_number,
            user_message := none, user_comment := some user_text,
            sender_name := ev.sender, is_pull_request := true,
            is_automatic_trigger := false, commit_sha := none }
        Proc.pure ⟨200, []⟩
      else if is_bulk_delete user_text then do
        invokeG env (.bulkDelete ev.repo (bulk_keep_branches user_text)
          (pyStrOptNat item_number))
        Proc.pure ⟨200, []⟩
      else if has_delete user_text then do
        trigger_writer_delete_branches env ev.repo (pyStrOptNat item_number)
          (extract_branch_names user_text)
        Proc.pure ⟨200, []⟩
      else if has_create user_text then do
        let branch_name := extract_branch user_text
          ((("ai-branch-").toList) ++ pyStrOptNat item_number)
        trigger_writer_direct_branch env ev.repo (pyStrOptNat item_number) branch_name
        Proc.pure ⟨200, []⟩
      else if has_list user_text then
        Proc.raise (("NameError: name trigger_writer_list_branches is not defined").toList)
      else do
        trigger_brain env
          { repo_full_name := ev.repo, pr_number := pyStrOptNat item_number,
            user_message := none, user_comment := some user_text,
            sender_name := ev.sender, is_pull_request := true,
            is_automatic_trigger := false, commit_sha := none }
        Proc.pure ⟨200, []⟩
    else Proc.pure ⟨200, []⟩

/-- The gateway `lambda_handler` (lines 86-297): the whole body runs in a
try whose except returns status 200, so the handler is total. -/
def lambda_handler (ev : GEvent) (env : GEnv) : List GEffect × Res :=
  let p := Proc.tryCatch (gateway_body ev env) (fun _ => Proc.pure ⟨200, []⟩)
  (p.eff, match p.res with
          | .ok r => r
          | .error _ => ⟨200, []⟩)

end Gateway

theorem lambda_handler_eff_eq (ev : Gateway.GEvent) (env : Gateway.GEnv) :
    (Gateway.lambda_handler ev env).1 = (Gateway.gateway_body ev env).eff := by
  unfold Gateway.lambda_handler Proc.tryCatch
  cases h : (Gateway.gateway_body ev env).res <;> simp [h, Proc.pure]

theorem invokeG_eff (env : Gateway.GEnv) (e : Gateway.GEffect) :
    (Gateway.invokeG env e).eff = [e] := rfl

theorem invokeG_res (env : Gateway.GEnv) (e : Gateway.GEffect) :
    (Gateway.invokeG env e).res = env.call e := rfl

/-- C2: a command text containing a code-change verb as a bounded whole
word together with a create-branch signal classifies as
CompoundCreateAndChange; the verb alone with no create signal classifies
as CodeChange, the Compound test being checked first. -/
theorem C2_compound_and_codechange_classification :
    ∀ body : List Char,
      (Gateway.has_create (Txt.lowerL body) = true →
        Gateway.has_code_change (Txt.lowerL body) = true →
        Gateway.classify body = Gateway.Intent.CompoundCreateAndChange) ∧
      (Gateway.has_code_change (Txt.lowerL body) = true →
        Gateway.has_create (Txt.lowerL body) = false →
        Gateway.classify body = Gateway.Intent.CodeChange) := by
  intro body
  constructor
  · intro h1 h2
    simp [Gateway.classify, h1, h2]
  · intro h1 h2
    simp [Gateway.classify, h1, h2]

theorem C2_compound_and_codechange_classification_witness :
    Gateway.classify (("@pr-agent create branch test-v1 and update x").toList)
        = Gateway.Intent.CompoundCreateAndChange ∧
      Gateway.classify (("@pr-agent update the readme").toList)
        = Gateway.Intent.CodeChange :=
  ⟨(C2_compound_and_codechange_classification _).1 (by decide) (by decide),
   (C2_compound_and_codechange_classification _).2 (by decide) (by decide)⟩

/-- C6: code-change verbs only count as whole words bounded by
start-of-text/whitespace and whitespace/end-of-text; a text whose only
occurrence of a verb sits inside an identifier is never classified as
CodeChange, and the concrete texts of the specification classify as
Unclassified. -/
theorem C6_whole_word_matching_excludes_substrings :
    (∀ body : List Char, Gateway.has_code_change (Txt.lowerL body) = false →
      Gateway.classify body ≠ Gateway.Intent.CodeChange) ∧
    Gateway.classify (("fix-1").toList) = Gateway.Intent.Unclassified ∧
    Gateway.classify (("branchfix-1").toList) = Gateway.Intent.Unclassified := by
  refine ⟨?_, by decide, by decide⟩
  intro body h
  cases hb : Gateway.is_bulk_delete (Txt.lowerL body) <;>
    cases hd : Gateway.has_delete (Txt.lowerL body) <;>
    cases hc : Gateway.has_create (Txt.lowerL body) <;>
    cases hl : Gateway.has_list (Txt.lowerL body) <;>
    simp [Gateway.classify, h, hb, hd, hc, hl]

theorem C6_whole_word_matching_excludes_substrings_witness :
    Gateway.classify (("@pr-agent branchfix-1").toList) ≠ Gateway.Intent.CodeChange :=
  C6_whole_word_matching_excludes_substrings.1 _ (by decide)

theorem Proc.monad_bind_eq {ε α β : Type} (x : Proc ε α) (f : α → Proc ε β) :
    (x >>= f) = Proc.bind x f := rfl

theorem Proc.monad_pure_eq {ε α : Type} (a : α) :
    (pure a : Proc ε α) = Proc.pure a := rfl

theorem Proc.bind_eff_exists {ε α β : Type} (x : Proc ε α) (f : α → Proc ε β) :
    ∃ t, (Proc.bind x f).eff = x.eff ++ t := by
  cases h : x.res with
  | ok a => exact ⟨(f a).eff, by simp [Proc.bind, h]⟩
  | error e => exact ⟨[], by simp [Proc.bind, h]⟩

theorem Proc.bind_head {ε α β : Type} (x : Proc ε α) (f : α → Proc ε β)
    (e : ε) (t : List ε) (h : x.eff = e :: t) :
    ∃ u, (x >>= f).eff = e :: u := by
  rw [Proc.monad_bind_eq]
  cases hr : x.res with
  | ok a => exact ⟨t ++ (f a).eff, by simp [Proc.bind, hr, h]⟩
  | error m => exact ⟨t, by simp [Proc.bind, hr, h]⟩

theorem invokeG_eq (env : Gateway.GEnv) (e : Gateway.GEffect) :
    Gateway.invokeG env e = ⟨[e], env.call e⟩ := rfl

theorem trigger_writer_direct_branch_head (env : Gateway.GEnv)
    (repo num b : List Char) :
    ∃ t, (Gateway.trigger_writer_direct_branch env repo num b).eff
      = Gateway.GEffect.createBranch repo b (("main").toList) :: t := by
  unfold Gateway.trigger_writer_direct_branch
  rw [Proc.monad_bind_eq, invokeG_eq, invokeG_eq]
  rw [Proc.bind_eff]
  cases h : env.call (Gateway.GEffect.createBranch repo b (("main").toList)) with
  | ok u => exact ⟨_, rfl⟩
  | error m => exact ⟨[], rfl⟩

theorem classify_compound_iff (b : List Char) :
    Gateway.classify b = Gateway.Intent.CompoundCreateAndChange ↔
      (Gateway.has_create (Txt.lowerL b) && Gateway.has_code_change (Txt.lowerL b)) = true := by
  unfold Gateway.classify
  cases h1 : Gateway.has_create (Txt.lowerL b) <;>
    cases h2 : Gateway.has_code_change (Txt.lowerL b) <;>
    cases h3 : Gateway.is_bulk_delete (Txt.lowerL b) <;>
    cases h4 : Gateway.has_delete (Txt.lowerL b) <;>
    cases h5 : Gateway.has_list (Txt.lowerL b) <;>
    simp [h1, h2, h3, h4, h5]

/-- C10: on a compound command the gateway creates the requested branch as
its very first side effect, before the controller (and hence any risk
verdict) is ever invoked, for every oracle environment — including ones
in which later calls fail; when all calls succeed, the full effect
sequence is branch creation, confirmation comment, thinking comment and
only then the controller invocation. -/
theorem C10_compound_creates_branch_unconditionally :
    ∀ (ev : Gateway.GEvent) (env : Gateway.GEnv),
      ev.hasRepository = true →
      ev.ref = none →
      ev.pullRequest = none →
      Txt.containsSub (("@pr-agent").toList) (Txt.lowerL ev.commentBody) = true →
      Gateway.classify ev.commentBody = Gateway.Intent.CompoundCreateAndChange →
      (∃ rest, (Gateway.lambda_handler ev env).1 =
          Gateway.GEffect.createBranch ev.repo
            (Gateway.extract_branch (Txt.lowerL ev.commentBody)
              (("ai-branch-compound").toList)) (("main").toList) :: rest) ∧
      ((∀ e, env.call e = Except.ok ()) →
        (Gateway.lambda_handler ev env).1 =
          [Gateway.GEffect.createBranch ev.repo
             (Gateway.extract_branch (Txt.lowerL ev.commentBody)
               (("ai-branch-compound").toList)) (("main").toList),
           Gateway.GEffect.postComment ev.repo
             (Txt.pyStrOptNat (Txt.pyOrNat ev.issueNumber none))
             (("✅ I\x27ve created the branch `").toList ++
               Gateway.extract_branch (Txt.lowerL ev.commentBody)
                 (("ai-branch-compound").toList) ++
               ("` directly for you.").toList),
           Gateway.GEffect.postComment ev.repo
             (Txt.pyStrOptNat (Txt.pyOrNat ev.issueNumber none))
             (("⏳ **Analyzing code changes with Gemini 2.0...**").toList),
           Gateway.GEffect.invokeBrain
             { repo_full_name := ev.repo,
               pr_number := Txt.pyStrOptNat (Txt.pyOrNat ev.issueNumber none),
               user_message := none,
               user_comment := some (Txt.lowerL ev.commentBody),
               sender_name := ev.sender, is_pull_request := true,
               is_automatic_trigger := false, commit_sha := none }]) := by
  intro ev env hrepo href hpr hmention hclass
  have hcc := (classify_compound_iff ev.commentBody).1 hclass
  rw [Bool.and_eq_true] at hcc
  have heff := lambda_handler_eff_eq ev env
  unfold Gateway.gateway_body at heff
  simp only [hrepo, href, hpr, hmention, hcc.1, hcc.2, Bool.not_true,
    Option.isSome_none, Bool.false_and, Bool.and_false, Bool.true_and,
    Bool.and_true, Option.bind_none, if_true, if_false, Bool.false_eq_true,
    ite_false, ite_true] at heff
  constructor
  · rw [heff]
    obtain ⟨t, ht⟩ := trigger_writer_direct_branch_head env ev.repo
      (Txt.pyStrOptNat (Txt.pyOrNat ev.issueNumber (Option.bind none (fun a => Gateway.GPR.number a))))
      (Gateway.extract_branch (Txt.lowerL ev.commentBody) (("ai-branch-compound").toList))
    exact Proc.bind_head _ _ _ _ ht
  · intro hok
    rw [heff]
    simp [Gateway.trigger_writer_direct_branch, Gateway.post_thinking_status,
      Gateway.trigger_brain, Proc.monad_bind_eq, Proc.monad_pure_eq,
      invokeG_eq, Proc.bind, Proc.pure, hok]

namespace Token

/-- URL-safe base64 alphabet (RFC 4648), as used by Python
base64.urlsafe_b64encode. -/
def b64Char (n : Nat) : Char :=
  if n < 26 then Char.ofNat (65 + n)
  else if n < 52 then Char.ofNat (97 + (n - 26))
  else if n < 62 then Char.ofNat (48 + (n - 52))
  else if n = 62 then '-' else '_'

/-- Inverse of the URL-safe alphabet. -/
def b64Val (c : Char) : Option Nat :=
  if 'A' ≤ c && c ≤ 'Z' then some (c.toNat - 65)
  else if 'a' ≤ c && c ≤ 'z' then some (c.toNat - 97 + 26)
  else if '0' ≤ c && c ≤ '9' then some (c.toNat - 48 + 52)
  else if c = '-' then some 62
  else if c = '_' then some 63
  else none

/-- Python base64.urlsafe_b64encode on a byte list (bytes as Nat < 256):
groups of three bytes become four alphabet characters; a trailing group
of one or two bytes is padded with `=`. -/
def b64Encode : List Nat → List Char
  | [] => []
  | [b1] => [b64Char (b1 / 4), b64Char (b1 % 4 * 16), '=', '=']
  | [b1, b2] =>
    [b64Char (b1 / 4), b64Char (b1 % 4 * 16 + b2 / 16), b64Char (b2 % 16 * 4), '=']
  | b1 :: b2 :: b3 :: rest =>
    b64Char (b1 / 4) :: b64Char (b1 % 4 * 16 + b2 / 16) ::
      b64Char (b2 % 16 * 4 + b3 / 64) :: b64Char (b3 % 64) :: b64Encode rest

/-- Fuelled worker of the base64 decoder: four characters at a time,
padding only allowed in the final group. -/
def b64DecodeChunks : Nat → List Char → Option (List Nat)
  | _, [] => some []
  | 0, _ => none
  | f + 1, c1 :: c2 :: c3 :: c4 :: rest =>
    match b64Val c1, b64Val c2 with
    | some v1, some v2 =>
      if c3 = '=' then
        if c4 = '=' && rest.isEmpty then some [v1 * 4 + v2 / 16] else none
      else
        match b64Val c3 with
        | some v3 =>
          if c4 = '=' then
            if rest.isEmpty then some [v1 * 4 + v2 / 16, v2 % 16 * 16 + v3 / 4]
            else none
          else
            match b64Val c4 with
            | some v4 =>
              (b64DecodeChunks f rest).map
                (fun bs => (v1 * 4 + v2 / 16) :: (v2 % 16 * 16 + v3 / 4) ::
                  (v3 % 4 * 64 + v4) :: bs)
            | none => none
        | none => none
    | _, _ => none
  | _ + 1, _ => none

/-- Python base64.urlsafe_b64decode with its default non-strict mode:
characters outside the alphabet (and padding) are discarded before
decoding; a leftover group that is not four characters long is an
error. -/
def b64Decode (s : List Char) : Option (List Nat) :=
  let t := s.filter (fun c => (b64Val c).isSome || c = '=')
  b64DecodeChunks (t.length + 1) t

theorem b64Val_b64Char : ∀ n, n < 64 → b64Val (b64Char n) = some n := by decide

theorem b64Char_kept : ∀ n, n < 64 →
    ((b64Val (b64Char n)).isSome || b64Char n = '=') = true := by decide

theorem b64Encode_filter_id (bs : List Nat) :
    (∀ b ∈ bs, b < 256) →
    (b64Encode bs).filter (fun c => (b64Val c).isSome || c = '=') = b64Encode bs := by
  induction bs using b64Encode.induct with
  | case1 => intro _; rfl
  | case2 b1 =>
    intro h
    have h1 : b1 < 256 := h b1 (by simp)
    simp [b64Encode, List.filter,
      b64Char_kept (b1 / 4) (by omega), b64Char_kept (b1 % 4 * 16) (by omega)]
  | case3 b1 b2 =>
    intro h
    have h1 : b1 < 256 := h b1 (by simp)
    have h2 : b2 < 256 := h b2 (by simp)
    simp [b64Encode, List.filter, b64Char_kept (b1 / 4) (by omega),
      b64Char_kept (b1 % 4 * 16 + b2 / 16) (by omega),
      b64Char_kept (b2 % 16 * 4) (by omega)]
  | case4 b1 b2 b3 rest ih =>
    intro h
    have h1 : b1 < 256 := h b1 (by simp)
    have h2 : b2 < 256 := h b2 (by simp)
    have h3 : b3 < 256 := h b3 (by simp)
    have hrest : ∀ b ∈ rest, b < 256 := fun b hb => h b (by simp [hb])
    simp [b64Encode, List.filter, b64Char_kept (b1 / 4) (by omega),
      b64Char_kept (b1 % 4 * 16 + b2 / 16) (by omega),
      b64Char_kept (b2 % 16 * 4 + b3 / 64) (by omega),
      b64Char_kept (b3 % 64) (by omega), ih hrest]

theorem b64Char_ne_pad : ∀ n, n < 64 → ¬ (b64Char n = '=') := by decide

theorem b64Encode_length_ge (bs : List Nat) :
    bs.length ≤ (b64Encode bs).length := by
  induction bs using b64Encode.induct <;> simp [b64Encode] <;> omega

theorem b64DecodeChunks_b64Encode :
    ∀ (bs : List Nat), (∀ b ∈ bs, b < 256) → ∀ f, bs.length + 1 ≤ f →
      b64DecodeChunks f (b64Encode bs) = some bs := by
  intro bs
  induction bs using b64Encode.induct with
  | case1 =>
    intro _ f _
    cases f <;> rfl
  | case2 b1 =>
    intro h f hf
    have h1 : b1 < 256 := h b1 (by simp)
    match f, hf with
    | f + 1, _ =>
      simp [b64Encode, b64DecodeChunks, b64Val_b64Char (b1 / 4) (by omega),
        b64Val_b64Char (b1 % 4 * 16) (by omega)]
      omega
  | case3 b1 b2 =>
    intro h f hf
    have h1 : b1 < 256 := h b1 (by simp)
    have h2 : b2 < 256 := h b2 (by simp)
    match f, hf with
    | f + 1, _ =>
      simp [b64Encode, b64DecodeChunks, b64Val_b64Char (b1 / 4) (by omega),
        b64Val_b64Char (b1 % 4 * 16 + b2 / 16) (by omega),
        b64Val_b64Char (b2 % 16 * 4) (by omega),
        b64Char_ne_pad (b2 % 16 * 4) (by omega)]
      omega
  | case4 b1 b2 b3 rest ih =>
    intro h f hf
    have h1 : b1 < 256 := h b1 (by simp)
    have h2 : b2 < 256 := h b2 (by simp)
    have h3 : b3 < 256 := h b3 (by simp)
    have hrest : ∀ b ∈ rest, b < 256 := fun b hb => h b (by simp [hb])
    match f, hf with
    | f + 1, hf =>
      have hfr : rest.length + 1 ≤ f := by
        simp only [List.length_cons] at hf
        omega
      simp [b64Encode, b64DecodeChunks, b64Val_b64Char (b1 / 4) (by omega),
        b64Val_b64Char (b1 % 4 * 16 + b2 / 16) (by omega),
        b64Val_b64Char (b2 % 16 * 4 + b3 / 64) (by omega),
        b64Val_b64Char (b3 % 64) (by omega),
        b64Char_ne_pad (b2 % 16 * 4 + b3 / 64) (by omega),
        b64Char_ne_pad (b3 % 64) (by omega),
        ih hrest f hfr]
      omega
  termination_by bs => bs.length

theorem b64Decode_b64Encode (bs : List Nat) (h : ∀ b ∈ bs, b < 256) :
    b64Decode (b64Encode bs) = some bs := by
  unfold b64Decode
  rw [b64Encode_filter_id bs h]
  exact b64DecodeChunks_b64Encode bs h _
    (Nat.succ_le_succ (b64Encode_length_ge bs))

end Token

namespace Token

/-- Lower-case hex digit, as produced by the CPython `\u%04x` escapes. -/
def hexDig (d : Nat) : Char :=
  if d < 10 then Char.ofNat (48 + d) else Char.ofNat (97 + (d - 10))

/-- Four-digit hex rendering of `n < 65536`. -/
def hex4 (n : Nat) : List Char :=
  [hexDig (n / 4096 % 16), hexDig (n / 256 % 16), hexDig (n / 16 % 16),
   hexDig (n % 16)]

/-- The json.dumps escape of one character with ensure_ascii (the
default): named escapes for quote, backslash, backspace, form feed,
newline, carriage return and tab; `\uXXXX` for remaining control and
non-ASCII characters; UTF-16 surrogate pairs for characters beyond the
basic multilingual plane. -/
def escChar (c : Char) : List Char :=
  if c = '"' then ['\\', '"']
  else if c = '\\' then ['\\', '\\']
  else if c = '\x08' then ['\\', 'b']
  else if c = '\x0c' then ['\\', 'f']
  else if c = '\n' then ['\\', 'n']
  else if c = '\r' then ['\\', 'r']
  else if c = '\t' then ['\\', 't']
  else if c.toNat < 32 then '\\' :: 'u' :: hex4 c.toNat
  else if c.toNat < 127 then [c]
  else if c.toNat < 65536 then '\\' :: 'u' :: hex4 c.toNat
  else
    ('\\' :: 'u' :: hex4 (55296 + (c.toNat - 65536) / 1024)) ++
      ('\\' :: 'u' :: hex4 (56320 + (c.toNat - 65536) % 1024))

/-- The json.dumps escape of a whole string (without the surrounding
quotes). -/
def escString (s : List Char) : List Char := s.flatMap escChar

/-- Hex digit value, both cases, as accepted by json.loads. -/
def hexVal (c : Char) : Option Nat :=
  if '0' ≤ c && c ≤ '9' then some (c.toNat - 48)
  else if 'a' ≤ c && c ≤ 'f' then some (c.toNat - 97 + 10)
  else if 'A' ≤ c && c ≤ 'F' then some (c.toNat - 65 + 10)
  else none

/-- Four hex digits. -/
def parseHex4 : List Char → Option (Nat × List Char)
  | c1 :: c2 :: c3 :: c4 :: rest =>
    match hexVal c1, hexVal c2, hexVal c3, hexVal c4 with
    | some d1, some d2, some d3, some d4 =>
      some (d1 * 4096 + d2 * 256 + d3 * 16 + d4, rest)
    | _, _, _, _ => none
  | _ => none

/-- The named escapes accepted by json.loads. -/
def escShort (e : Char) : Option Char :=
  if e = '"' then some '"'
  else if e = '\\' then some '\\'
  else if e = '/' then some '/'
  else if e = 'b' then some '\x08'
  else if e = 'f' then some '\x0c'
  else if e = 'n' then some '\n'
  else if e = 'r' then some '\r'
  else if e = 't' then some '\t'
  else none

/-- The json.loads string scanner in strict mode, after the opening quote:
reads characters up to the closing quote, decoding backslash escapes,
combining UTF-16 surrogate pairs, and rejecting raw control characters.
A lone surrogate escape is rejected (the embedding's characters are
Unicode scalar values, and the encoder never produces lone surrogates).
Fuelled; one unit of fuel per decoded character. -/
def parseJString : Nat → List Char → Option (List Char × List Char)
  | 0, _ => none
  | _ + 1, [] => none
  | f + 1, c :: rest =>
    if c = '"' then some ([], rest)
    else if c = '\\' then
      match rest with
      | [] => none
      | e :: rest2 =>
        if e = 'u' then
          match parseHex4 rest2 with
          | none => none
          | some (n, rest3) =>
            if n < 55296 || 57343 < n then
              if n < 1114112 then
                (parseJString f rest3).map (fun p => (Char.ofNat n :: p.1, p.2))
              else none
            else if n < 56320 then
              match rest3 with
              | b1 :: b2 :: rest4 =>
                if b1 = '\\' && b2 = 'u' then
                  match parseHex4 rest4 with
                  | some (m, rest5) =>
                    if 56320 ≤ m && m ≤ 57343 then
                      (parseJString f rest5).map (fun p =>
                        (Char.ofNat (65536 + (n - 55296) * 1024 + (m - 56320)) :: p.1, p.2))
                    else none
                  | none => none
                else none
              | _ => none
            else none
        else
          match escShort e with
          | some d => (parseJString f rest2).map (fun p => (d :: p.1, p.2))
          | none => none
    else if c.toNat < 32 then none
    else (parseJString f rest).map (fun p => (c :: p.1, p.2))

theorem hexVal_hexDig : ∀ d, d < 16 → hexVal (hexDig d) = some d := by decide

theorem parseHex4_hex4 (n : Nat) (h : n < 65536) (rest : List Char) :
    parseHex4 (hex4 n ++ rest) = some (n, rest) := by
  simp only [hex4, List.cons_append, List.nil_append, parseHex4,
    hexVal_hexDig (n / 4096 % 16) (by omega),
    hexVal_hexDig (n / 256 % 16) (by omega),
    hexVal_hexDig (n / 16 % 16) (by omega),
    hexVal_hexDig (n % 16) (by omega)]
  congr 2
  omega

end Token

namespace Token

theorem char_toNat_valid (c : Char) :
    c.toNat < 55296 ∨ (57343 < c.toNat ∧ c.toNat < 1114112) := c.valid

theorem parseJString_escChar (c : Char) (z : List Char) (f : Nat) :
    parseJString (f + 1) (escChar c ++ z) =
      (parseJString f z).map (fun p => (c :: p.1, p.2)) := by
  by_cases h1 : c = '"'
  · subst h1; rfl
  by_cases h2 : c = '\\'
  · subst h2; rfl
  by_cases h3 : c = '\x08'
  · subst h3; rfl
  by_cases h4 : c = '\x0c'
  · subst h4; rfl
  by_cases h5 : c = '\n'
  · subst h5; rfl
  by_cases h6 : c = '\r'
  · subst h6; rfl
  by_cases h7 : c = '\t'
  · subst h7; rfl
  by_cases h8 : c.toNat < 32
  · have hner : ¬ (57343 < c.toNat) := by omega
    simp only [escChar, h1, h2, h3, h4, h5, h6, h7, h8, if_false, if_true,
      ite_false, ite_true, List.cons_append, parseJString,
      parseHex4_hex4 c.toNat (by omega) z]
    simp [h1, h2, h8, Char.ofNat_toNat, (by omega : c.toNat < 55296),
      (by omega : c.toNat < 1114112)]
  by_cases h9 : c.toNat < 127
  · have hcq : ¬ ((c : Char) = '"') := h1
    simp only [escChar, h1, h2, h3, h4, h5, h6, h7, h8, h9, if_false, if_true,
      ite_false, ite_true, List.cons_append, List.nil_append, parseJString]
  by_cases h10 : c.toNat < 65536
  · have hval := char_toNat_valid c
    have hv2 : c.toNat < 55296 ∨ 57343 < c.toNat := by omega
    simp only [escChar, h1, h2, h3, h4, h5, h6, h7, h8, h9, h10, if_false,
      if_true, ite_false, ite_true, List.cons_append, parseJString,
      parseHex4_hex4 c.toNat (by omega) z]
    rcases hv2 with hv2 | hv2 <;>
      simp [hv2, Char.ofNat_toNat, (by omega : c.toNat < 1114112)]
  · have hval := char_toNat_valid c
    have hcv : c.toNat < 1114112 := by omega
    have hdiv : (c.toNat - 65536) / 1024 < 1024 := by omega
    have hmod : (c.toNat - 65536) % 1024 < 1024 := by omega
    obtain ⟨H, hH⟩ : ∃ H, hex4 (55296 + (c.toNat - 65536) / 1024) = H := ⟨_, rfl⟩
    obtain ⟨L, hL⟩ : ∃ L, hex4 (56320 + (c.toNat - 65536) % 1024) = L := ⟨_, rfl⟩
    have e1 : parseHex4 (H ++ ('\\' :: 'u' :: (L ++ z)))
        = some (55296 + (c.toNat - 65536) / 1024, '\\' :: 'u' :: (L ++ z)) := by
      rw [← hH]
      exact parseHex4_hex4 _ (by omega) _
    have e2 : parseHex4 (L ++ z) = some (56320 + (c.toNat - 65536) % 1024, z) := by
      rw [← hL]
      exact parseHex4_hex4 _ (by omega) _
    have hhi1 : ¬ (55296 + (c.toNat - 65536) / 1024 < 55296) := by omega
    have hhi2 : ¬ (57343 < 55296 + (c.toNat - 65536) / 1024) := by omega
    have hhi3 : 55296 + (c.toNat - 65536) / 1024 < 56320 := by omega
    have hlo1 : 56320 ≤ 56320 + (c.toNat - 65536) % 1024 := by omega
    have hlo2 : 56320 + (c.toNat - 65536) % 1024 ≤ 57343 := by omega
    simp only [escChar, h1, h2, h3, h4, h5, h6, h7, h8, h9, h10, if_false,
      if_true, ite_false, ite_true, hH, hL, List.cons_append, List.append_assoc,
      List.nil_append, parseJString, e1, e2]
    simp [hhi1, hhi2, hhi3, hlo1, hlo2]
    have hcomb2 : 65536 + (c.toNat - 65536) / 1024 * 1024 +
        (c.toNat - 65536) % 1024 = c.toNat := by omega
    rw [hcomb2, Char.ofNat_toNat]

end Token

namespace Token

theorem escString_nil : escString [] = [] := rfl

theorem escString_cons (c : Char) (s : List Char) :
    escString (c :: s) = escChar c ++ escString s := by
  simp [escString]

theorem escChar_len_pos (c : Char) : 1 ≤ (escChar c).length := by
  unfold escChar
  repeat' split
  all_goals simp [hex4]

theorem escString_length_ge (s : List Char) :
    s.length ≤ (escString s).length := by
  induction s with
  | nil => simp [escString]
  | cons c cs ih =>
    rw [escString_cons]
    simp only [List.length_cons, List.length_append]
    have := escChar_len_pos c
    omega

theorem parseJString_escString (s : List Char) :
    ∀ (tail : List Char) (f : Nat), s.length + 1 ≤ f →
      parseJString f (escString s ++ ('"') :: tail) = some (s, tail) := by
  induction s with
  | nil =>
    intro tail f hf
    match f, hf with
    | f + 1, _ => rfl
  | cons c cs ih =>
    intro tail f hf
    match f, hf with
    | f + 1, hf =>
      rw [escString_cons, List.append_assoc, parseJString_escChar c _ f,
        ih tail f (by simp only [List.length_cons] at hf; omega)]
      rfl

/-- The continuation token of the specification: the fields serialised by
`trigger_high_risk_approval_smart` (controller lines 312-318).  The
commit sha may be absent (Python None). -/
structure ContToken where
  request : List Char
  jira_ticket_id : List Char
  repo_full_name : List Char
  pr_number : List Char
  commit_sha : Option (List Char)
  deriving DecidableEq, Repr

/-- A JSON string literal: quote, escaped content, quote. -/
def jstr (s : List Char) : List Char :=
  ('"') :: (escString s ++ [('"')])

/-- json.dumps of the token dictionary with the default separators and
ensure_ascii, in the insertion order of the source dictionary:
request, jira_ticket_id, repo_full_name, pr_number, commit_sha (the last
possibly null).  The concatenation is written right-nested. -/
def jsonDumpsToken (t : ContToken) : List Char :=
  ("\x7b\"request\": ").toList ++
    (jstr t.request ++
      ((", \"jira_ticket_id\": ").toList ++
        (jstr t.jira_ticket_id ++
          ((", \"repo_full_name\": ").toList ++
            (jstr t.repo_full_name ++
              ((", \"pr_number\": ").toList ++
                (jstr t.pr_number ++
                  ((", \"commit_sha\": ").toList ++
                    ((match t.commit_sha with
                      | some s => jstr s
                      | none => ("null").toList) ++ ("\x7d").toList)))))))))

/-- Literal matcher of the restricted json.loads. -/
def parseLit (lit s : List Char) : Option (List Char) :=
  if lit.isPrefixOf s then some (s.drop lit.length) else none

/-- A quoted JSON string at the head of the input. -/
def parseJStrField (s : List Char) : Option (List Char × List Char) :=
  match s with
  | [] => none
  | c :: rest => if c = '"' then parseJString (rest.length + 1) rest else none

/-- json.loads of a continuation-token blob, restricted to the exact
object layout json.dumps emits for the token dictionary (fixed key order
and separators) — the only shape the decode path ever receives from the
encoder.  String values are parsed by the full json.loads string scanner,
so arbitrary escaped content round-trips. -/
def parseTokenJson (s : List Char) : Option ContToken := do
  let s1 ← parseLit (("\x7b\"request\": ").toList) s
  let p1 ← parseJStrField s1
  let s3 ← parseLit ((", \"jira_ticket_id\": ").toList) p1.2
  let p2 ← parseJStrField s3
  let s5 ← parseLit ((", \"repo_full_name\": ").toList) p2.2
  let p3 ← parseJStrField s5
  let s7 ← parseLit ((", \"pr_number\": ").toList) p3.2
  let p4 ← parseJStrField s7
  let s9 ← parseLit ((", \"commit_sha\": ").toList) p4.2
  match parseLit (("null\x7d").toList) s9 with
  | some s10 =>
    if s10.isEmpty then some ⟨p1.1, p2.1, p3.1, p4.1, none⟩ else none
  | none => do
    let p5 ← parseJStrField s9
    let s11 ← parseLit (("\x7d").toList) p5.2
    if s11.isEmpty then some ⟨p1.1, p2.1, p3.1, p4.1, some p5.1⟩ else none

theorem parseLit_append (l z : List Char) : parseLit l (l ++ z) = some z := by
  unfold parseLit
  rw [if_pos (List.isPrefixOf_iff_prefix.2 (List.prefix_append l z)),
    List.drop_left]

theorem parseJStrField_jstr (a R : List Char) :
    parseJStrField (jstr a ++ R) = some (a, R) := by
  have hshape : jstr a ++ R = ('"') :: (escString a ++ (('"') :: R)) := by
    simp [jstr]
  rw [hshape]
  simp only [parseJStrField, if_pos]
  exact parseJString_escString a R _ (by
    have h1 := escString_length_ge a
    simp only [List.length_append, List.length_cons]
    omega)

end Token

namespace Token

theorem parseLit_head_ne (n c : Char) (l r : List Char) (h : ¬ n = c) :
    parseLit (n :: l) (c :: r) = none := by
  simp [parseLit, List.isPrefixOf, h]

theorem parseTokenJson_jsonDumpsToken (t : ContToken) :
    parseTokenJson (jsonDumpsToken t) = some t := by
  obtain ⟨req, tid, repo, prn, sha⟩ := t
  cases sha with
  | none =>
    have hnull : parseLit (("null\x7d").toList)
        ((("null").toList) ++ (("\x7d").toList)) = some [] := by decide
    simp only [jsonDumpsToken, parseTokenJson, parseLit_append,
      parseJStrField_jstr, hnull, bind, Option.bind, List.isEmpty_nil, if_true,
      ite_true]
  | some s =>
    have hnn : parseLit (("null\x7d").toList) (jstr s ++ (("\x7d").toList)) = none := by
      rw [show jstr s ++ (("\x7d").toList)
          = ('"') :: (escString s ++ (('"') :: (("\x7d").toList))) from by simp [jstr]]
      exact parseLit_head_ne _ _ _ _ (by decide)
    have hfin : parseLit (("\x7d").toList) (("\x7d").toList) = some [] := by decide
    simp only [jsonDumpsToken, parseTokenJson, parseLit_append,
      parseJStrField_jstr, hnn, hfin, bind, Option.bind, List.isEmpty_nil,
      if_true, ite_true]

theorem hexDig_ascii : ∀ d, d < 16 → (hexDig d).toNat < 128 := by decide

theorem hex4_ascii (n : Nat) : ∀ x ∈ hex4 n, x.toNat < 128 := by
  intro x hx
  simp [hex4] at hx
  rcases hx with h | h | h | h <;> subst h <;> exact hexDig_ascii _ (by omega)

theorem escChar_ascii (c : Char) : ∀ x ∈ escChar c, x.toNat < 128 := by
  intro x hx
  unfold escChar at hx
  split at hx
  · simp only [List.mem_cons, List.not_mem_nil, or_false] at hx
    rcases hx with rfl | rfl <;> decide
  split at hx
  · simp only [List.mem_cons, List.not_mem_nil, or_false] at hx
    rcases hx with rfl | rfl <;> decide
  split at hx
  · simp only [List.mem_cons, List.not_mem_nil, or_false] at hx
    rcases hx with rfl | rfl <;> decide
  split at hx
  · simp only [List.mem_cons, List.not_mem_nil, or_false] at hx
    rcases hx with rfl | rfl <;> decide
  split at hx
  · simp only [List.mem_cons, List.not_mem_nil, or_false] at hx
    rcases hx with rfl | rfl <;> decide
  split at hx
  · simp only [List.mem_cons, List.not_mem_nil, or_false] at hx
    rcases hx with rfl | rfl <;> decide
  split at hx
  · simp only [List.mem_cons, List.not_mem_nil, or_false] at hx
    rcases hx with rfl | rfl <;> decide
  split at hx
  · simp only [List.mem_cons] at hx
    rcases hx with rfl | rfl | h
    · decide
    · decide
    · exact hex4_ascii _ x h
  split at hx
  · rename_i hlt
    simp only [List.mem_cons, List.not_mem_nil, or_false] at hx
    subst hx
    omega
  split at hx
  · simp only [List.mem_cons] at hx
    rcases hx with rfl | rfl | h
    · decide
    · decide
    · exact hex4_ascii _ x h
  · simp only [List.mem_append, List.mem_cons] at hx
    rcases hx with (rfl | rfl | h) | (rfl | rfl | h)
    · decide
    · decide
    · exact hex4_ascii _ x h
    · decide
    · decide
    · exact hex4_ascii _ x h

theorem escString_ascii (s : List Char) : ∀ x ∈ escString s, x.toNat < 128 := by
  induction s with
  | nil => intro x hx; simp [escString] at hx
  | cons c cs ih =>
    intro x hx
    rw [escString_cons] at hx
    rcases List.mem_append.1 hx with h | h
    · exact escChar_ascii c x h
    · exact ih x h

theorem jstr_ascii (s : List Char) : ∀ x ∈ jstr s, x.toNat < 128 := by
  intro x hx
  simp only [jstr, List.mem_cons, List.mem_append, List.not_mem_nil,
    or_false] at hx
  rcases hx with rfl | h | rfl
  · decide
  · exact escString_ascii s x h
  · decide

theorem jsonDumpsToken_ascii (t : ContToken) :
    ∀ x ∈ jsonDumpsToken t, x.toNat < 128 := by
  intro x hx
  unfold jsonDumpsToken at hx
  simp only [List.mem_append] at hx
  rcases hx with h | h | h | h | h | h | h | h | h | h | h
  · exact (by decide : ∀ y ∈ ("\x7b\"request\": ").toList, y.toNat < 128) x h
  · exact jstr_ascii _ x h
  · exact (by decide : ∀ y ∈ (", \"jira_ticket_id\": ").toList, y.toNat < 128) x h
  · exact jstr_ascii _ x h
  · exact (by decide : ∀ y ∈ (", \"repo_full_name\": ").toList, y.toNat < 128) x h
  · exact jstr_ascii _ x h
  · exact (by decide : ∀ y ∈ (", \"pr_number\": ").toList, y.toNat < 128) x h
  · exact jstr_ascii _ x h
  · exact (by decide : ∀ y ∈ (", \"commit_sha\": ").toList, y.toNat < 128) x h
  · rcases ht : t.commit_sha with _ | s
    · rw [ht] at h
      exact (by decide : ∀ y ∈ ("null").toList, y.toNat < 128) x h
    · rw [ht] at h
      exact jstr_ascii s x h
  · exact (by decide : ∀ y ∈ ("\x7d").toList, y.toNat < 128) x h

end Token

namespace Token

/-- `params_json` of `trigger_high_risk_approval_smart` (controller
lines 312-318): URL-safe base64 of the UTF-8 bytes of the json.dumps of
the token dictionary.  The dumps output is pure ASCII (ensure_ascii), so
the UTF-8 encoding is the identity on character codes. -/
def encodeToken (t : ContToken) : List Char :=
  b64Encode ((jsonDumpsToken t).map Char.toNat)

/-- The decode performed on resume (`handle_approval` lines 530-535 and
`handle_rejection` lines 385-388): URL-safe base64 decode of the captured
text, UTF-8 decode of the bytes (modelled on the ASCII plane, which is
all the encoder ever produces), then json.loads of the token object. -/
def decodeToken (s : List Char) : Option ContToken :=
  match b64Decode s with
  | none => none
  | some bytes =>
    if bytes.all (fun b => b < 128) then
      parseTokenJson (bytes.map Char.ofNat)
    else none

end Token

/-- C3: the continuation token round-trips: decoding the URL-safe base64
JSON serialisation recovers every field of the token — request text,
ticket id, repository, PR number and commit sha — exactly, for every
token. -/
theorem C3_token_roundtrip :
    ∀ t : Token.ContToken, Token.decodeToken (Token.encodeToken t) = some t := by
  intro t
  have hascii := Token.jsonDumpsToken_ascii t
  have hb : ∀ b ∈ (Token.jsonDumpsToken t).map Char.toNat, b < 256 := by
    intro b hb
    rcases List.mem_map.1 hb with ⟨c, hc, rfl⟩
    have := hascii c hc
    omega
  unfold Token.encodeToken Token.decodeToken
  rw [Token.b64Decode_b64Encode _ hb]
  have hall : ((Token.jsonDumpsToken t).map Char.toNat).all (fun b => b < 128) = true := by
    rw [List.all_eq_true]
    intro b hbm
    rcases List.mem_map.1 hbm with ⟨c, hc, rfl⟩
    simpa using hascii c hc
  show (if ((Token.jsonDumpsToken t).map Char.toNat).all (fun b => b < 128) then
      Token.parseTokenJson (((Token.jsonDumpsToken t).map Char.toNat).map Char.ofNat)
    else none) = some t
  rw [if_pos hall]
  have hmm : ((Token.jsonDumpsToken t).map Char.toNat).map Char.ofNat
      = Token.jsonDumpsToken t := by
    rw [List.map_map]
    have : (Char.ofNat ∘ Char.toNat) = id := by
      funext c
      simp [Char.ofNat_toNat]
    rw [this, List.map_id]
  rw [hmm]
  exact Token.parseTokenJson_jsonDumpsToken t

theorem C3_token_roundtrip_witness :
    Token.decodeToken (Token.encodeToken
      ⟨("update services/x.py").toList, ("SCRUM-123").toList,
       ("lmudu2/risk-analyzer-poc").toList, ("7").toList,
       some (("abc123").toList)⟩)
      = some ⟨("update services/x.py").toList, ("SCRUM-123").toList,
          ("lmudu2/risk-analyzer-poc").toList, ("7").toList,
          some (("abc123").toList)⟩ :=
  C3_token_roundtrip _

set_option maxRecDepth 10000 in
example :
    Token.decodeToken (Token.encodeToken
      ⟨("fix \"x\"\npath ⏸").toList, ("SCRUM-7").toList, ("o/r").toList,
       ("5").toList, none⟩)
      = some ⟨("fix \"x\"\npath ⏸").toList, ("SCRUM-7").toList, ("o/r").toList,
          ("5").toList, none⟩ := by decide

namespace Writer

open Txt

/-- The keep set of the writer's `delete_all_branches` function
(writer lambda lines 101-105): the lower-cased keep parameters, always
extended with main and master. -/
def keep_set (keep : List (List Char)) : List (List Char) :=
  (keep.map lowerL) ++ [("main").toList, ("master").toList]

/-- The branches `delete_all_branches` deletes (writer lines 116-128):
every listed branch whose lower-cased name is not in the keep set. -/
def delete_all_branches_deleted (keep branches : List (List Char)) :
    List (List Char) :=
  branches.filter (fun b => !(keep_set keep).contains (lowerL b))

end Writer

example : Writer.delete_all_branches_deleted []
    [("main").toList, ("Master").toList, ("dev").toList] = [("dev").toList] := by decide

namespace Brain

open Txt

/-- Writer-lambda invocations the controller issues. -/
inductive WriterCall where
  | postComment (repo pr_num text : List Char)
  | jiraCreate (repo pr_num risk_level service_name approval_comment : List Char)
  | jiraUpdate (repo ticket_id comment_text pr_num : List Char)
  | sendEmail (repo pr_num risk_level service_name details : List Char)
  | createBranch (repo branch base : List Char)
  | deleteBranch (repo branch : List Char)
  | updateFile (repo path branch content : List Char)
  deriving DecidableEq, Repr

/-- Externally visible actions of the controller: direct GitHub mutations
(status, PR state, merge) and writer-lambda invocations. -/
inductive BEffect where
  | setCommitStatus (repo sha state desc : List Char)
  | updatePRState (repo pr state : List Char)
  | mergePR (repo pr : List Char)
  | writer (c : WriterCall)
  deriving DecidableEq, Repr

/-- The pull-request fields `handle_approval` reads. -/
structure PRInfo where
  headRef : List Char
  title : List Char
  body : List Char
  deriving DecidableEq, Repr

/-- Outcome of the GitHub contents fetch: an HTTP error with a code, or
some other exception, or the decoded file text. -/
inductive FetchErr where
  | http (code : Nat) (reason : List Char)
  | other (msg : List Char)
  deriving DecidableEq, Repr

/-- Oracle environment for the controller lambda: outcomes of every
external read and invocation.  `groq` models the HTTP completion call:
an `error` value is an exception raised inside `call_groq_api` (a failure
or timeout of the backend); reads like the diff, PR, comments, branches
and file fetches are oracles with no recorded effect; `writerInvoke`
returns the response body text of the writer lambda or raises. -/
structure BrainEnv where
  diffFetch : Except (List Char) (List Char)
  groq : List Char → Except (List Char) (List Char)
  prFetch : Except (List Char) PRInfo
  branchExists : List Char → Bool
  commentsFetch : Except (List Char) (List (List Char))
  fileFetch : List Char → List Char → Except FetchErr (List Char)
  branchList : Except (List Char) (List (List Char))
  writerInvoke : WriterCall → Except (List Char) (List Char)
  mergeOk : Bool
  kb_architecture_map : List Char
  kb_incident_history : List Char
  kb_deployment_policies : List Char
  now : Nat

/-- The controller event payload (after JSON parsing). -/
structure BrainEvent where
  repo_full_name : List Char
  pr_number : List Char
  is_pull_request : Bool
  user_message : Option (List Char)
  user_comment : Option (List Char)
  sender_name : List Char
  is_automatic_trigger : Bool
  commit_sha : Option (List Char)
  deriving DecidableEq, Repr

abbrev P (α : Type) := Proc BEffect α

/-- Python truthiness of an optional string: absent and empty are falsy. -/
def pyTruthy : Option (List Char) → Bool
  | some s => !s.isEmpty
  | none => false

/-- Issue one writer invocation: the call is recorded, its outcome
consulted; a raising invocation propagates as an exception. -/
def invokeWriter (env : BrainEnv) (c : WriterCall) : P (List Char) :=
  ⟨[BEffect.writer c], env.writerInvoke c⟩

/-- `post_github_comment` (controller lines 876-892): a fire-and-forget
writer invocation; a raising invocation still propagates from the boto
call itself. -/
def post_github_comment (env : BrainEnv) (repo pr_num text : List Char) : P Unit := do
  let _ ← invokeWriter env (.postComment repo pr_num text)
  Proc.pure ()

/-- `set_commit_status` (lines 224-249): skipped for a falsy sha; the
HTTP call never raises (it catches its own errors). -/
def set_commit_status (repo sha state desc : List Char) : P Unit :=
  if sha.isEmpty then Proc.pure ()
  else ⟨[BEffect.setCommitStatus repo sha state desc], .ok ()⟩

/-- `update_pr_state` (lines 204-222): the HTTP call never raises. -/
def update_pr_state (repo pr state : List Char) : P Unit :=
  ⟨[BEffect.updatePRState repo pr state], .ok ()⟩

/-- `merge_pull_request` (lines 352-372): the HTTP call never raises and
reports success as a Bool. -/
def merge_pull_request (env : BrainEnv) (repo pr : List Char) : P Bool :=
  ⟨[BEffect.mergePR repo pr], .ok env.mergeOk⟩

/-- `call_groq_api` (lines 127-159): the HTTP call and response parsing
run inside a try whose except returns the error as a plain message
string, so this function never raises — the decisive detail for C1. -/
def call_groq_api (env : BrainEnv) (prompt : List Char) : P (List Char) :=
  match env.groq prompt with
  | .ok content => Proc.pure content
  | .error e => Proc.pure ((("Error calling AI Model: ").toList) ++ e)

/-- `build_system_prompt` (lines 162-201). -/
def build_system_prompt (env : BrainEnv) (repo pr_num user_msg diff : List Char) :
    List Char :=
  ("You are a PR Risk Analyzer. Analyze the following request and provide a risk assessment.\n\nContext: PULL REQUEST #").toList ++
    pr_num ++ (" in ").toList ++ repo ++
    ("\nExisting Code Changes (Diff):\n").toList ++ diff.take 5000 ++
    ("\n\nUser Request: ").toList ++ user_msg ++
    ("\n\n\nKNOWLEDGE BASE CONTEXT (use this for risk analysis):\n\n").toList ++
    env.kb_architecture_map ++ ("\n\n").toList ++
    env.kb_incident_history ++ ("\n\n").toList ++
    env.kb_deployment_policies ++
    ("\n\n\nINSTRUCTIONS:\n1. Analyze the request using the KNOWLEDGE BASE above\n2. Identify risk level: LOW, MEDIUM, or HIGH\n3. Reference specific incidents or policies from the KB\n4. Explain your reasoning\n\nRISK CLASSIFICATION RULES:\n- Schema changes (especially user_id field) = HIGH RISK (reference Incident #OUTAGE-2024-06)\n- Changes affecting Legacy-Scanner-Adapter = HIGH RISK\n- Database modifications = HIGH RISK\n- Branch operations (create/delete) = LOW/MEDIUM RISK depending on context\n- Documentation updates = LOW RISK\n\nProvide your analysis in this format:\nRISK LEVEL: [LOW/MEDIUM/HIGH]\nREASONING: [Your detailed analysis referencing KB]\nRECOMMENDATION: [What should be done]\n").toList

/-- Tail of the risk regex at a fixed position just after a
case-insensitive `RISK LEVEL`: one or more non-word characters, then the
alternation HIGH, MEDIUM, LOW (case-insensitive, in that order);
group(1).upper() of the match. -/
def riskAfterLabel (s : List Char) : Option (List Char) :=
  let wrun := s.takeWhile (fun c => !isWordChar c)
  if wrun.isEmpty then none
  else
    let rest := s.drop wrun.length
    if startsCI (("high").toList) rest then some (("HIGH").toList)
    else if startsCI (("medium").toList) rest then some (("MEDIUM").toList)
    else if startsCI (("low").toList) rest then some (("LOW").toList)
    else none

/-- Leftmost search of `RISK LEVEL\W+(HIGH|MEDIUM|LOW)` with
re.IGNORECASE (line 256). -/
def searchRiskLevel : List Char → Option (List Char)
  | [] => none
  | c :: rest =>
    (if startsCI (("risk level").toList) (c :: rest) then
      riskAfterLabel ((c :: rest).drop 10)
    else none).orElse (fun _ => searchRiskLevel rest)

/-- `extract_risk_level` (lines 252-266): the regex, then the stricter
substring heuristic on the upper-cased analysis, defaulting to LOW. -/
def extract_risk_level (analysis : List Char) : List Char :=
  match searchRiskLevel analysis with
  | some lvl => lvl
  | none =>
    if containsSub (("RISK LEVEL: HIGH").toList) (upperL analysis) then ("HIGH").toList
    else if containsSub (("RISK LEVEL: MEDIUM").toList) (upperL analysis) then ("MEDIUM").toList
    else ("LOW").toList

def isDigit (c : Char) : Bool := '0' ≤ c && c ≤ '9'

/-- Leftmost search of `(SCRUM-\d+)` (line 304). -/
def searchScrum : List Char → Option (List Char)
  | [] => none
  | c :: rest =>
    (if ("SCRUM-").toList.isPrefixOf (c :: rest) then
      let digits := ((c :: rest).drop 6).takeWhile isDigit
      if digits.isEmpty then none else some ((("SCRUM-").toList) ++ digits)
    else none).orElse (fun _ => searchScrum rest)

end Brain

example : Brain.extract_risk_level (("**RISK LEVEL:** Medium\nREASONING: x").toList)
    = ("MEDIUM").toList := by decide

example : Brain.extract_risk_level (("Error calling AI Model: timed out").toList)
    = ("LOW").toList := by decide

example : Brain.searchScrum (("ok SCRUM-123 done").toList) = some (("SCRUM-123").toList) := by
  decide

namespace Brain

open Txt

/-- `trigger_high_risk_approval_smart` (lines 269-350): the pause
machinery.  With a commit sha present: failure status and PR close.
Always: one synchronous ticket-creation invocation (its failure caught,
default ticket id kept), one approval-email invocation whose details
carry the fresh continuation token, and one paused comment carrying the
same token. -/
def trigger_high_risk_approval_smart (env : BrainEnv)
    (user_msg repo pr_num analysis risk_level : List Char)
    (commit_sha : Option (List Char)) : P Res := do
  (match commit_sha with
   | some sha =>
     if sha.isEmpty then Proc.pure ()
     else do
       set_commit_status repo sha (("failure").toList)
         (("High Risk - Approval Required").toList)
       update_pr_state repo pr_num (("closed").toList)
   | none => Proc.pure ())
  let ticket_default := ("SCRUM-").toList ++ natToStr (env.now % 1000)
  let ticket_id ← Proc.tryCatch
    (do
      let jira_text ← invokeWriter env (.jiraCreate repo pr_num risk_level repo
        ((("AI RISK ANALYSIS:\n").toList) ++ analysis))
      match searchScrum jira_text with
      | some tid => Proc.pure tid
      | none => Proc.pure ticket_default)
    (fun _ => Proc.pure ticket_default)
  let params_json := Token.encodeToken
    ⟨user_msg, ticket_id, repo, pr_num, commit_sha⟩
  let _ ← invokeWriter env (.sendEmail repo pr_num risk_level repo
    (analysis ++ ("\n\n[ACTION: ai_analyzed_action]\n[PARAMS: ").toList ++
      params_json ++ ("]").toList))
  post_github_comment env repo pr_num
    ((("**🤖 AI Risk Analysis (Powered by Llama 3 70B)**\n\n**Jira Ticket:** ").toList) ++
      ticket_id ++ ("\n\n").toList ++ analysis ++
      ("\n\n⏸️ **Paused:** Waiting for approval via email.\n \n<!-- params: ").toList ++
      params_json ++ (" -->\n").toList)
  Proc.pure ⟨200, ("High Risk Approval Flow Triggered").toList⟩

/-- The canned fallback analysis text of `handle_fallback`
(lines 835-837). -/
def fallback_analysis : List Char :=
  ("RISK LEVEL: MEDIUM\nREASONING: Unable to perform AI analysis due to technical error. Defaulting to cautious approach.\nRECOMMENDATION: Please review manually.").toList

/-- `handle_fallback` (lines 831-842): degrade to a MEDIUM pause via the
same machinery.  Reachable only when an exception escapes the analysis
block of `lambda_handler`. -/
def handle_fallback (env : BrainEnv)
    (user_msg repo pr_num _error : List Char)
    (commit_sha : Option (List Char)) : P Res :=
  trigger_high_risk_approval_smart env user_msg repo pr_num fallback_analysis
    (("MEDIUM").toList) commit_sha

/-- Whitespace-plus-word with case-insensitive literal: `\s+word` of an
IGNORECASE regex. -/
def eatWSWordCI (w s : List Char) : Option (List Char) :=
  let ws := s.takeWhile isWS
  if ws.isEmpty then none
  else
    let rest := s.drop ws.length
    if startsCI w rest then some (rest.drop w.length) else none

/-- After `except` inside the bulk regex: `\s+main`. -/
def exceptThenMain (r : List Char) : Bool :=
  match eatWS r with
  | some r2 => startsCI (("main").toList) r2
  | none => false

/-- The `.*except\s+main` tail of the bulk regex: a newline-free gap
(the dot does not match newlines), then `except`, whitespace, `main`;
the gap backtracks over every possible length. -/
def gapThenExceptMain : List Char → Bool
  | [] => false
  | c :: rest =>
    (startsCI (("except").toList) (c :: rest) &&
      exceptThenMain ((c :: rest).drop 6)) ||
    (c ≠ '\n' && gapThenExceptMain rest)

/-- The bulk regex `delete\s+all\s+branches?.*except\s+main` with
re.IGNORECASE (line 740), checked at one start position. -/
def bulkAt (s : List Char) : Bool :=
  startsCI (("delete").toList) s &&
    (match eatWSWordCI (("all").toList) (s.drop 6) with
     | none => false
     | some r1 =>
       match eatWSWordCI (("branch").toList) r1 with
       | none => false
       | some r2 =>
         let r3 := if startsCI (("s").toList) r2 then r2.drop 1 else r2
         gapThenExceptMain r3)

/-- Leftmost search of the bulk regex. -/
def brain_bulk_match : List Char → Bool
  | [] => false
  | c :: rest => bulkAt (c :: rest) || brain_bulk_match rest

/-- The branches the bulk fast path deletes (line 755): everything whose
name differs from the literal `main` — master included. -/
def bulk_branches_to_delete (branches : List (List Char)) : List (List Char) :=
  branches.filter (fun b => b ≠ ("main").toList)

end Brain

example : Brain.brain_bulk_match (("delete all branches except main").toList) = true := by
  decide

example : Brain.brain_bulk_match (("delete all branches except master").toList) = false := by
  decide

example : Brain.bulk_branches_to_delete
    [("main").toList, ("master").toList, ("dev").toList]
    = [("master").toList, ("dev").toList] := by decide

namespace Brain

open Txt

/-- Target-name class `[a-zA-Z0-9\-_/\.]` of the bypass intent regex. -/
def bypassClassChar (c : Char) : Bool :=
  (('a' ≤ c && c ≤ 'z') || ('A' ≤ c && c ≤ 'Z') || ('0' ≤ c && c ≤ '9') ||
    c = '-' || c = '_' || c = '/' || c = '.')

/-- Right word boundary: end of text or a non-word character next. -/
def rbWordOK : List Char → Bool
  | [] => true
  | c :: _ => !isWordChar c

/-- The resource alternation `(branch|file|pr|pull request)` with its
trailing `\b`, tried at one position in alternation order; an
alternative whose boundary fails backtracks to the next. -/
def tryResourceAt (s : List Char) : Option (List Char × List Char) :=
  ([("branch").toList, ("file").toList, ("pr").toList,
    ("pull request").toList].filterMap (fun r =>
      if startsCI r s && rbWordOK (s.drop r.length) then
        some (r, s.drop r.length)
      else none)).head?

/-- The lazy gap `.*?\b` before the resource: positions are tried from
shortest gap; the gap may not contain newlines; the left `\b` requires
the preceding character to be a non-word character. -/
def findResource (prevWord : Bool) : List Char → Option (List Char × List Char)
  | [] => none
  | c :: rest =>
    (if !prevWord then tryResourceAt (c :: rest) else none).orElse
      (fun _ =>
        if c = '\n' then none
        else findResource (isWordChar c) rest)

/-- The optional group `(?:\s+(?:named|called|for))?` followed by
`\s+([class]+)`: the group prefers to match and backtracks away when the
remainder fails. -/
def afterResourceCapture (s : List Char) : Option (List Char) :=
  (match (do
    let ws := s.takeWhile isWS
    if ws.isEmpty then none
    else
      let r := s.drop ws.length
      ([("named").toList, ("called").toList, ("for").toList].filterMap
        (fun w => if startsCI w r then some (r.drop w.length) else none)).head?
    : Option (List Char)) with
   | some r2 =>
     (match eatWS r2 with
      | some r3 =>
        let cap := r3.takeWhile bypassClassChar
        if cap.isEmpty then none else some cap
      | none => none)
   | none => none).orElse (fun _ =>
    match eatWS s with
    | some r3 =>
      let cap := r3.takeWhile bypassClassChar
      if cap.isEmpty then none else some cap
    | none => none)

/-- The bypass intent regex of `try_bypass_commands` (lines 788-792):
`(create|delete|merge)\b.*?\b(branch|file|pr|pull request)\b`
`(?:\s+(?:named|called|for))?\s+([a-zA-Z0-9\-_/\.]+)` with re.IGNORECASE,
checked at one start position.  Returns (verb, resource, target); the
lower-cased groups 1 and 2 are the alternation literals themselves. -/
def bypassIntentAt (s : List Char) : Option (List Char × List Char × List Char) :=
  match ([("create").toList, ("delete").toList, ("merge").toList].filterMap
    (fun v => if startsCI v s then some (v, s.drop v.length) else none)).head? with
  | none => none
  | some (v, after) =>
    match after with
    | [] => none
    | c :: _ =>
      if isWordChar c then none
      else
        match findResource true after with
        | none => none
        | some (r, afterR) =>
          match afterResourceCapture afterR with
          | none => none
          | some target => some (v, r, target)

/-- Leftmost search of the bypass intent regex. -/
def search_bypass_intent : List Char → Option (List Char × List Char × List Char)
  | [] => none
  | c :: rest =>
    (bypassIntentAt (c :: rest)).orElse (fun _ => search_bypass_intent rest)

/-- One keyword of the brain's compound guard
(lines 800-804): `\b{keyword}(?:\s|$)` with re.IGNORECASE — a left word
boundary (start of text or a preceding non-word character), the keyword,
then whitespace or end of text. -/
def kwHereB (kw s : List Char) : Bool :=
  startsCI kw s &&
    (match s.drop kw.length with
     | [] => true
     | c :: _ => isWS c)

def hasKwB (kw : List Char) : Bool → List Char → Bool
  | _, [] => false
  | prevWord, c :: rest =>
    (!prevWord && kwHereB kw (c :: rest)) || hasKwB kw (isWordChar c) rest

def brain_code_change_keywords : List (List Char) :=
  [("update").toList, ("modify").toList, ("change").toList, ("fix").toList,
   ("edit").toList, ("rewrite").toList, ("replace").toList]

/-- The compound-command guard of `try_bypass_commands` (lines 797-805). -/
def brain_has_code_change (user_msg : List Char) : Bool :=
  brain_code_change_keywords.any (fun kw => hasKwB kw false user_msg)

/-- The deletion loop of the bulk fast path (lines 762-777): each delete
invocation runs in its own try; failures are skipped and not counted. -/
def bulkDeleteLoop (env : BrainEnv) (repo : List Char) :
    List (List Char) → Nat → P Nat
  | [], n => Proc.pure n
  | b :: bs, n => do
    let n2 ← Proc.tryCatch
      (do
        let _ ← invokeWriter env (.deleteBranch repo b)
        Proc.pure (n + 1))
      (fun _ => Proc.pure n)
    bulkDeleteLoop env repo bs n2

/-- `try_bypass_commands` (lines 736-828): the bulk fast path, then the
single-operation fast path guarded against approval keywords and
code-change verbs.  Returns `none` when the analysis path should run. -/
def try_bypass_commands (env : BrainEnv) (user_msg repo pr_num : List Char) :
    P (Option Res) := do
  if brain_bulk_match user_msg then
    Proc.tryCatch
      (do
        let branches ← Proc.fromExcept env.branchList
        let branches_to_delete := bulk_branches_to_delete branches
        if branches_to_delete.isEmpty then do
          post_github_comment env repo pr_num
            (("ℹ️ **No branches to delete**\n\nOnly `main` branch exists.").toList)
          Proc.pure (some ⟨200, ("No branches to delete").toList⟩)
        else do
          let deleted_count ← bulkDeleteLoop env repo branches_to_delete 0
          post_github_comment env repo pr_num
            ((("✅ **Bulk Deletion Complete**\n\nDeleted ").toList) ++
              natToStr deleted_count ++ (" branches:\n").toList ++
              joinSep (("\n").toList)
                (branches_to_delete.map (fun b => ("- `").toList ++ b ++ ("`").toList)) ++
              ("\n\n`main` branch preserved.").toList)
          Proc.pure (some ⟨200, (("Deleted ").toList) ++ natToStr deleted_count ++
            (" branches").toList⟩))
      (fun e => do
        post_github_comment env repo pr_num
          ((("⚠️ **Bulk deletion failed**: ").toList) ++ e)
        Proc.pure (some ⟨200, (("Failed: ").toList) ++ e⟩))
  else
    match search_bypass_intent user_msg with
    | none => Proc.pure none
    | some (action_verb, resource_type, target_name) =>
      if containsSub (("approved").toList) (lowerL user_msg) then Proc.pure none
      else if brain_has_code_change user_msg then Proc.pure none
      else if containsSub (("create").toList) action_verb &&
          containsSub (("branch").toList) resource_type then do
        let _ ← invokeWriter env (.createBranch repo target_name (("main").toList))
        post_github_comment env repo pr_num
          ((("✅ **Low Risk Action:** Branch `").toList) ++ target_name ++
            ("` created successfully.\nNo risk analysis required.").toList)
        Proc.pure (some ⟨200, ("Low Risk Success").toList⟩)
      else Proc.pure none

end Brain

example : Brain.search_bypass_intent (("create branch test-v1").toList)
    = some ((("create").toList), (("branch").toList), (("test-v1").toList)) := by decide

example : Brain.search_bypass_intent (("please create a file named x.py").toList)
    = some ((("create").toList), (("file").toList), (("x.py").toList)) := by decide

example : Brain.search_bypass_intent (("created branches").toList) = none := by decide

example : Brain.brain_has_code_change (("branchfix-1").toList) = false := by decide

example : Brain.brain_has_code_change (("please fix it").toList) = true := by decide

namespace Brain

open Txt

/-- Base64-token class `[a-zA-Z0-9\-_=]` of the params captures. -/
def classB64 (c : Char) : Bool :=
  (('a' ≤ c && c ≤ 'z') || ('A' ≤ c && c ≤ 'Z') || ('0' ≤ c && c ≤ '9') ||
    c = '-' || c = '_' || c = '=')

/-- Leftmost search of `Params:\s*([a-zA-Z0-9\-_=]+)` (case-sensitive,
line 383). -/
def searchParamsInMsg : List Char → Option (List Char)
  | [] => none
  | c :: rest =>
    (if ("Params:").toList.isPrefixOf (c :: rest) then
      let r := ((c :: rest).drop 7).dropWhile isWS
      let cap := r.takeWhile classB64
      if cap.isEmpty then none else some cap
    else none).orElse (fun _ => searchParamsInMsg rest)

/-- Leftmost search of `Jira Ticket\W+([A-Z]+-\d+)` (case-sensitive,
lines 404 and 519): the label, a non-empty run of non-word characters,
a non-empty run of capital letters, a hyphen, a non-empty run of
digits. -/
def searchJiraLabel : List Char → Option (List Char)
  | [] => none
  | c :: rest =>
    (if ("Jira Ticket").toList.isPrefixOf (c :: rest) then
      let r := (c :: rest).drop 11
      let wrun := r.takeWhile (fun c => !isWordChar c)
      if wrun.isEmpty then none
      else
        let r2 := r.drop wrun.length
        let caps := r2.takeWhile (fun c => 'A' ≤ c && c ≤ 'Z')
        if caps.isEmpty then none
        else
          match r2.drop caps.length with
          | c2 :: r3 =>
            if c2 = '-' then
              let digs := r3.takeWhile isDigit
              if digs.isEmpty then none else some (caps ++ ('-' :: digs))
            else none
          | [] => none
    else none).orElse (fun _ => searchJiraLabel rest)

/-- The newest-first ticket scan of `handle_rejection` (lines 396-408):
the first comment carrying an analysis or fallback marker and a
readable ticket label wins. -/
def scanTicketFromComments : List (List Char) → Option (List Char)
  | [] => none
  | body :: rest =>
    if containsSub (("AI Risk Analysis").toList) body ||
        containsSub (("Fallback Mode").toList) body then
      match searchJiraLabel body with
      | some t => some t
      | none => scanTicketFromComments rest
    else scanTicketFromComments rest

/-- `handle_rejection` (lines 375-435): recover the ticket id from the
message params or the comment history, update the ticket (an uncaught
invocation), post the cancellation comment (also uncaught). -/
def handle_rejection (env : BrainEnv)
    (user_msg repo pr_num sender_name : List Char) : P Res := do
  let ticket0 : Option (List Char) :=
    match searchParamsInMsg user_msg with
    | none => none
    | some cap =>
      match Token.decodeToken cap with
      | some tok => some tok.jira_ticket_id
      | none => none
  let ticket_id : Option (List Char) :=
    match ticket0 with
    | some t => some t
    | none =>
      match env.commentsFetch with
      | .ok bodies => scanTicketFromComments bodies
      | .error _ => none
  (match ticket_id with
   | some t => do
     let _ ← invokeWriter env (.jiraUpdate repo t
       ((("❌ **Rejected by ").toList) ++ sender_name ++
         (":** User denied the request.").toList) pr_num)
     Proc.pure ()
   | none => Proc.pure ())
  post_github_comment env repo pr_num
    ((("❌ **Request Rejected**\n\nThe operation has been cancelled by ").toList) ++
      sender_name ++ (".\n\n**Jira Updated:** ").toList ++
      (match ticket_id with
       | some t => t
       | none => ("N/A").toList))
  Proc.pure ⟨200, ("Rejection Handled").toList⟩

end Brain

namespace Brain

open Txt

/-- The probe list of `handle_approval` (line 462):
`[f"test-v{i}" for i in range(1, 20)][::-1]` — test-v19 down to
test-v1. -/
def approval_candidates : List (List Char) :=
  ((List.range' 1 19).reverse).map (fun i => (("test-v").toList) ++ natToStr i)

/-- The result of branch resolution: the execution branch plus the PR
title and body (empty when the PR could not be fetched). -/
structure ResolveOut where
  branch : List Char
  pr_title : List Char
  pr_body : List Char
  deriving DecidableEq, Repr

/-- Branch resolution of `handle_approval` (lines 446-498): prefer the
PR's head branch; if the PR fetch raises, probe the candidate names in
order; if none exists, create `approved-change-<time%10000>` from main —
a failing creation posts a failure comment and returns early. -/
def resolve_branch (env : BrainEnv) (repo pr_num : List Char) :
    P (Sum Res ResolveOut) :=
  match env.prFetch with
  | .ok pr => Proc.pure (.inr ⟨pr.headRef, pr.title, pr.body⟩)
  | .error _ =>
    match approval_candidates.find? env.branchExists with
    | some b => Proc.pure (.inr ⟨b, [], []⟩)
    | none =>
      let name := ("approved-change-").toList ++ natToStr (env.now % 10000)
      Proc.tryCatch
        (do
          let _ ← invokeWriter env (.createBranch repo name (("main").toList))
          Proc.pure (.inr ⟨name, [], []⟩))
        (fun e => do
          post_github_comment env repo pr_num
            ((("⚠️ **Approval Failed**: Could not create branch `").toList) ++
              name ++ ("`\n\nError: ").toList ++ e)
          Proc.pure (.inl ⟨200, (("Branch creation failed: ").toList) ++ e⟩))

/-- Tail of the modern params marker
`<!-- params:\s*([a-zA-Z0-9\-_=]+)\s*-->` after `<!-- params:`: skip
whitespace, take the maximal class run, then shrink the greedy capture
until the remainder is whitespace followed by the closing arrow. -/
def trailOK (s : List Char) : Bool :=
  ("-->").toList.isPrefixOf (s.dropWhile isWS)

def shrinkCapAux : List Char → List Char → Option (List Char)
  | [], _ => none
  | d :: revRest, after =>
    if trailOK after then some ((d :: revRest).reverse)
    else shrinkCapAux revRest (d :: after)

def paramsCommentAt (r : List Char) : Option (List Char) :=
  let r2 := r.dropWhile isWS
  let run := r2.takeWhile classB64
  shrinkCapAux run.reverse (r2.drop run.length)

/-- Leftmost search of the modern params marker (line 525). -/
def extract_params_comment : List Char → Option (List Char)
  | [] => none
  | c :: rest =>
    (if ("<!-- params:").toList.isPrefixOf (c :: rest) then
      paramsCommentAt ((c :: rest).drop 12)
    else none).orElse (fun _ => extract_params_comment rest)

/-- Leftmost search of the legacy marker
`\[params\]:\s*([a-zA-Z0-9\-_=]+)` (line 528). -/
def extract_params_legacy : List Char → Option (List Char)
  | [] => none
  | c :: rest =>
    (if ("[params]:").toList.isPrefixOf (c :: rest) then
      let r := ((c :: rest).drop 9).dropWhile isWS
      let cap := r.takeWhile classB64
      if cap.isEmpty then none else some cap
    else none).orElse (fun _ => extract_params_legacy rest)

/-- Both marker formats, modern first (lines 525-528). -/
def extract_params (body : List Char) : Option (List Char) :=
  (extract_params_comment body).orElse (fun _ => extract_params_legacy body)

/-- Recovery state of the comment scan. -/
structure ScanState where
  jira_ticket : List Char
  recovered_request : Option (List Char)
  commit_sha_recovered : Option (List Char)
  deriving DecidableEq, Repr

/-- The newest-first comment scan of `handle_approval` (lines 508-541):
marker comments contribute a ticket id (first one wins) and a decoded
params blob (each successful decode overwrites); the scan stops once a
ticket and a truthy recovered request are both present; decode failures
skip to older comments. -/
def scan_comments : List (List Char) → ScanState → ScanState
  | [], st => st
  | body :: rest, st =>
    if containsSub (("AI Risk Analysis").toList) body ||
        containsSub (("Fallback Mode").toList) body then
      let st1 :=
        if st.jira_ticket = ("UNKNOWN").toList then
          match searchJiraLabel body with
          | some t => { st with jira_ticket := t }
          | none => st
        else st
      let st2 :=
        match extract_params body with
        | some cap =>
          match Token.decodeToken cap with
          | some tok =>
            { st1 with recovered_request := some tok.request,
                       commit_sha_recovered := tok.commit_sha }
          | none => st1
        | none => st1
      if st2.jira_ticket ≠ ("UNKNOWN").toList && pyTruthy st2.recovered_request then
        st2
      else scan_comments rest st2
    else scan_comments rest st

/-- Leftmost search of `Context:\s*(.+)` with re.IGNORECASE, with the
captured group stripped (lines 550-552).  The dot does not cross
newlines; when only whitespace follows, the greedy `\s*` backtracks far
enough to leave a non-newline whitespace character for the group, and
the strip empties it. -/
def searchContext : List Char → Option (List Char)
  | [] => none
  | c :: rest =>
    (if startsCI (("context:").toList) (c :: rest) then
      let T := (c :: rest).drop 8
      let W := T.takeWhile isWS
      let R := T.drop W.length
      if !R.isEmpty then some (stripWS (R.takeWhile (fun c => c ≠ '\n')))
      else if W.any (fun c => c ≠ '\n') then some []
      else none
    else none).orElse (fun _ => searchContext rest)

/-- Step 3 of `handle_approval` (lines 545-554): context in the live
message beats the recovered request, which beats the PR title. -/
def recover_request_text (user_msg pr_title : List Char)
    (recovered : Option (List Char)) : List Char :=
  if containsSub (("Context:").toList) user_msg then
    match searchContext user_msg with
    | some t => t
    | none => pr_title
  else
    match recovered with
    | some r => if r.isEmpty then pr_title else r
    | none => pr_title

/-- Leftmost search of the branch override regex
`(?:create|on|to)\s+(?:a\s+)?(?:branch\s+)?([a-zA-Z0-9\-_]+)` with
re.IGNORECASE (line 609). -/
def overrideTail (useA useBranch : Bool) (s : List Char) : Option (List Char) :=
  match eatWS s with
  | none => none
  | some r1 =>
    let s2 := if useA then
        (match (if startsCI (("a").toList) r1 then eatWS (r1.drop 1) else none) with
         | some r => some r
         | none => none)
      else some r1
    match s2 with
    | none => none
    | some r2 =>
      let s3 := if useBranch then
          (if startsCI (("branch").toList) r2 then eatWS (r2.drop 6) else none)
        else some r2
      match s3 with
      | none => none
      | some r3 =>
        let cap := r3.takeWhile isNameChar
        if cap.isEmpty then none else some cap

def overrideAt (s : List Char) : Option (List Char) :=
  match ([("create").toList, ("on").toList, ("to").toList].filterMap
    (fun v => if startsCI v s then some (s.drop v.length) else none)).head? with
  | none => none
  | some after =>
    ([(true, true), (true, false), (false, true), (false, false)].filterMap
      (fun c => overrideTail c.1 c.2 after)).head?

def search_override_branch : List Char → Option (List Char)
  | [] => none
  | c :: rest =>
    (overrideAt (c :: rest)).orElse (fun _ => search_override_branch rest)

/-- The keyword filter on an extracted override branch (line 613). -/
def override_filtered (eb : List Char) : Bool :=
  [("and").toList, ("update").toList, ("change").toList,
   ("services").toList, ("file").toList].contains (lowerL eb)

end Brain

example : Brain.search_override_branch (("update services/x.py on test-v1").toList)
    = some (("test-v1").toList) := by decide

example : Brain.searchContext (("ok Context: update x.py now").toList)
    = some (("update x.py now").toList) := by decide

namespace Brain

open Txt

/-- File-path class `[a-zA-Z0-9_\-\./]` of the file-detection regex. -/
def fileClassChar (c : Char) : Bool :=
  (('a' ≤ c && c ≤ 'z') || ('A' ≤ c && c ≤ 'Z') || ('0' ≤ c && c ≤ '9') ||
    c = '_' || c = '-' || c = '.' || c = '/')

def isAlnumC (c : Char) : Bool :=
  (('a' ≤ c && c ≤ 'z') || ('A' ≤ c && c ≤ 'Z') || ('0' ≤ c && c ≤ '9'))

/-- Backtracking of the greedy class run of
`([a-zA-Z0-9_\-\./]+\.[a-zA-Z0-9]{2,5})` (line 622) within one maximal
run: the largest split point whose character is a dot followed by at
least two alphanumerics wins; the extension takes at most five. -/
def fileCapAt (run : List Char) : Option (List Char) :=
  ((List.range run.length).reverse).foldl
    (fun acc k =>
      match acc with
      | some r => some r
      | none =>
        if 1 ≤ k && run.getD k ' ' = '.' then
          let ext := ((run.drop (k + 1)).takeWhile isAlnumC).take 5
          if 2 ≤ ext.length then some (run.take k ++ ('.' :: ext)) else none
        else none)
    none

/-- Leftmost search of the dotted-path regex, advancing one character at
a time so starts inside a class run are also tried. -/
def search_file_dotted : List Char → Option (List Char)
  | [] => none
  | c :: rest =>
    (let run := (c :: rest).takeWhile fileClassChar
     if run.isEmpty then none else fileCapAt run).orElse
      (fun _ => search_file_dotted rest)

/-- Leftmost search of the fallback `update\s+([a-zA-Z0-9_\-\./]+)` with
re.IGNORECASE (line 625). -/
def search_file_update : List Char → Option (List Char)
  | [] => none
  | c :: rest =>
    (if startsCI (("update").toList) (c :: rest) then
      match eatWS ((c :: rest).drop 6) with
      | some r =>
        let cap := r.takeWhile fileClassChar
        if cap.isEmpty then none else some cap
      | none => none
    else none).orElse (fun _ => search_file_update rest)

/-- File detection of `handle_approval` (lines 622-625). -/
def detect_target_file (request_text : List Char) : Option (List Char) :=
  (search_file_dotted request_text).orElse
    (fun _ => search_file_update request_text)

/-- `re.sub(r'^```\w*\n', '', s)` (line 654). -/
def stripFenceStart (s : List Char) : List Char :=
  if ("```").toList.isPrefixOf s then
    let r := s.drop 3
    let w := r.takeWhile isWordChar
    match r.drop w.length with
    | c :: rest2 => if c = '\n' then rest2 else s
    | [] => s
  else s

/-- `re.sub(r'\n```$', '', s)` (line 655); the input was stripped first,
so the end anchor is the end of the text. -/
def stripFenceEnd (s : List Char) : List Char :=
  if ("```\n").toList.isPrefixOf s.reverse then (s.reverse.drop 4).reverse
  else s

/-- The code-transformation prompt (lines 643-649). -/
def code_transform_prompt (request_text target_file current : List Char) :
    List Char :=
  ("You are a Code Editor.\nUser\x27s Request: ").toList ++ request_text ++
    ("\nFile: ").toList ++ target_file ++
    ("\nCurrent Content:\n").toList ++ current ++
    ("\n\nApply the requested changes and output ONLY the full new content of the file. No markdown blocks, no explanations.").toList

/-- Steps 5-7 of `handle_approval` (lines 631-693): fetch the file from
the resolved branch, ask the backend for the replacement, strip fencing,
invoke the writer, post the success comment and return — or convert the
failure into an execution log (`Sum.inr`). -/
def execute_file_update (env : BrainEnv)
    (repo pr_num branch_name request_text target_file sender_name : List Char) :
    P (Sum Res (List Char)) :=
  match env.fileFetch target_file branch_name with
  | .error (FetchErr.http code reason) =>
    if code = 404 then
      Proc.pure (.inr ((("⚠️ Execution failed: File `").toList) ++ target_file ++
        ("` not found on branch `").toList ++ branch_name ++ ("`").toList))
    else
      Proc.pure (.inr ((("⚠️ Execution failed: File fetch failed: ").toList) ++
        natToStr code ++ (" ").toList ++ reason))
  | .error (FetchErr.other msg) =>
    Proc.pure (.inr ((("⚠️ Execution failed: ").toList) ++ msg))
  | .ok current_content => do
    let raw ← call_groq_api env
      (code_transform_prompt request_text target_file current_content)
    let new_content := stripFenceEnd (stripFenceStart (stripWS raw))
    Proc.tryCatch
      (do
        let resp ← invokeWriter env
          (.updateFile repo target_file branch_name new_content)
        post_github_comment env repo pr_num
          ((("✅ **Approved & Executed (Direct Mode)**\n\nRequest: ").toList) ++
            request_text ++ ("\n\nUpdated `").toList ++ target_file ++
            ("` on branch `").toList ++ branch_name ++
            ("`\n\n**Approved By:** ").toList ++ sender_name ++
            ("\n\nWriter Response: ").toList ++ resp)
        Proc.pure (.inl ⟨200, ("Direct execution complete").toList⟩))
      (fun e => Proc.pure (.inr ((("⚠️ Execution failed: ").toList) ++ e)))

end Brain

namespace Brain

open Txt

/-- The risk-accepted unblock flow of `handle_approval` (lines 562-603):
ticket update (caught), risk-accepted comment, PR reopen, auto-merge,
final status comment. -/
def unblock_flow (env : BrainEnv)
    (repo pr_num sender_name jira_ticket : List Char) : P Res := do
  (if !jira_ticket.isEmpty && jira_ticket ≠ ("UNKNOWN").toList then
    Proc.tryCatch
      (do
        let _ ← invokeWriter env (.jiraUpdate repo jira_ticket
          ((("✅ **Approved by ").toList) ++ sender_name ++
            (":** Risk accepted. PR unblocked.").toList) pr_num)
        Proc.pure ())
      (fun _ => Proc.pure ())
  else Proc.pure ())
  post_github_comment env repo pr_num
    ((("✅ **Risk Accepted**\n\nPR has been unblocked by ").toList) ++
      sender_name ++ (" (Re-opened).\n\n**Jira Updated:** ").toList ++ jira_ticket)
  update_pr_state repo pr_num (("open").toList)
  let merged ← merge_pull_request env repo pr_num
  post_github_comment env repo pr_num
    ((("**Status:** ").toList) ++
      (if merged then ("Merged Automatically 🚀").toList
       else ("Ready to Merge (Manual Merge Required)").toList))
  Proc.pure ⟨200, ("Risk Analysis Unblocked").toList⟩

/-- Steps 8 and 9 of `handle_approval` (lines 698-722): ticket update
(caught) and the final result comment (uncaught). -/
def approval_wrapup (env : BrainEnv)
    (repo pr_num sender_name jira_ticket request_text execution_log : List Char) :
    P Res := do
  (if !jira_ticket.isEmpty && jira_ticket ≠ ("UNKNOWN").toList then
    Proc.tryCatch
      (do
        let _ ← invokeWriter env (.jiraUpdate repo jira_ticket
          ((("❌ **Rejected by ").toList) ++ sender_name ++
            (":** Request denied by user.").toList) pr_num)
        Proc.pure ())
      (fun _ => Proc.pure ())
  else Proc.pure ())
  post_github_comment env repo pr_num
    ((("✅ **Approved Action Executed**\n\nRequest: ").toList) ++ request_text ++
      ("\n\n**Status:** ").toList ++ execution_log ++
      ("\n**Approved By:** ").toList ++ sender_name ++
      ("\n**Jira Updated:** ").toList ++ jira_ticket)
  Proc.pure ⟨200, ("Autopilot Execution Complete").toList⟩

/-- The body of the big try of `handle_approval` (lines 445-722). -/
def approval_body (env : BrainEnv)
    (user_msg repo pr_num sender_name : List Char) : P Res := do
  let resolved ← resolve_branch env repo pr_num
  match resolved with
  | .inl r => Proc.pure r
  | .inr ro => do
    let st :=
      match env.commentsFetch with
      | .ok bodies => scan_comments bodies ⟨("UNKNOWN").toList, none, none⟩
      | .error _ => ⟨("UNKNOWN").toList, none, none⟩
    let request_text := recover_request_text user_msg ro.pr_title st.recovered_request
    (match st.commit_sha_recovered with
     | some sha =>
       if sha.isEmpty then Proc.pure ()
       else set_commit_status repo sha (("success").toList)
         ((("Approved by ").toList) ++ sender_name)
     | none => Proc.pure ())
    if containsSub (("Automatic Risk Analysis Trigger").toList) request_text then
      unblock_flow env repo pr_num sender_name st.jira_ticket
    else do
      let branch_name :=
        match search_override_branch request_text with
        | some eb => if override_filtered eb then ro.branch else eb
        | none => ro.branch
      let outcome ←
        match detect_target_file request_text with
        | some target_file =>
          execute_file_update env repo pr_num branch_name request_text
            target_file sender_name
        | none =>
          Proc.pure (Sum.inr
            (("⚠️ Could not detect file to update from request").toList))
      match outcome with
      | .inl r => Proc.pure r
      | .inr execution_log =>
        approval_wrapup env repo pr_num sender_name st.jira_ticket
          request_text execution_log

/-- `handle_approval` (lines 439-733): the body runs in a try whose
except posts an approval-failed comment (itself uncaught) and falls
through to the final 200. -/
def handle_approval (env : BrainEnv)
    (user_msg repo pr_num sender_name : List Char) : P Res :=
  Proc.tryCatch (approval_body env user_msg repo pr_num sender_name)
    (fun e => do
      post_github_comment env repo pr_num
        ((("⚠️ **Approval Failed**: Unexpected error in approval handler: ").toList) ++ e)
      Proc.pure ⟨200, ("Autopilot Execution Complete").toList⟩)

/-- The numeric normalisation of the PR number
(`str(int(float(...)))`, lines 53-56), modelled as the identity on the
canonical decimal strings the events carry. -/
def clean_num (s : List Char) : List Char := s

/-- The effective user message (line 59): `user_message` if truthy, else
`user_comment` if the key is present, else the literal default. -/
def effective_user_msg (ev : BrainEvent) : List Char :=
  match ev.user_message with
  | some s =>
    if s.isEmpty then
      match ev.user_comment with
      | some c => c
      | none => ("Evaluate the request.").toList
    else s
  | none =>
    match ev.user_comment with
    | some c => c
    | none => ("Evaluate the request.").toList

/-- The controller `lambda_handler` (lines 47-124). -/
def lambda_handler (env : BrainEnv) (ev : BrainEvent) : P Res := do
  let repo := ev.repo_full_name
  let pr_number := clean_num ev.pr_number
  let user_msg := effective_user_msg ev
  (if ev.is_automatic_trigger && pyTruthy ev.commit_sha then
    set_commit_status repo (ev.commit_sha.getD [])
      (("pending").toList) (("Analyzing Risk (Gemma 3 12B)...").toList)
  else Proc.pure ())
  let pr_diff :=
    if ev.is_pull_request then
      match env.diffFetch with
      | .ok d => d
      | .error _ => ("No code diff available.").toList
    else ("No code diff available.").toList
  if containsSub (("approved").toList) (lowerL user_msg) then
    handle_approval env user_msg repo pr_number ev.sender_name
  else if containsSub (("rejected").toList) (lowerL user_msg) then
    handle_rejection env user_msg repo pr_number ev.sender_name
  else do
    let bypass ← try_bypass_commands env user_msg repo pr_number
    match bypass with
    | some r => Proc.pure r
    | none =>
      Proc.tryCatch
        (do
          let analysis ← call_groq_api env
            (build_system_prompt env repo pr_number user_msg pr_diff)
          let risk_level := extract_risk_level analysis
          if risk_level = ("HIGH").toList || risk_level = ("MEDIUM").toList then
            trigger_high_risk_approval_smart env user_msg repo pr_number
              analysis risk_level ev.commit_sha
          else do
            (if ev.is_automatic_trigger && pyTruthy ev.commit_sha then do
              set_commit_status repo (ev.commit_sha.getD [])
                (("success").toList) (("Low Risk - Safe to Merge").toList)
              let _ ← merge_pull_request env repo pr_number
              post_github_comment env repo pr_number
                (analysis ++
                  ("\n\n✅ **Auto-Merge**: Low Risk. Merging automatically.").toList)
            else
              post_github_comment env repo pr_number analysis)
            Proc.pure ⟨200, ("Low Risk - Executed").toList⟩)
        (fun e => handle_fallback env user_msg repo pr_number e ev.commit_sha)

end Brain

/-- A controller environment in which the risk-analysis backend call
fails (raises inside `call_groq_api`) while every collaborator
invocation succeeds. -/
def c1env : Brain.BrainEnv :=
  { diffFetch := .ok (("diff").toList),
    groq := fun _ => .error (("timed out").toList),
    prFetch := .ok ⟨("b").toList, ("t").toList, ("bd").toList⟩,
    branchExists := fun _ => false,
    commentsFetch := .ok [],
    fileFetch := fun _ _ => .error (.other (("x").toList)),
    branchList := .ok [],
    writerInvoke := fun _ => .ok (("SUCCESS").toList),
    mergeOk := true,
    kb_architecture_map := [],
    kb_incident_history := [],
    kb_deployment_policies := [],
    now := 0 }

/-- An automatic-trigger analysis event with a commit sha — the workflow
state in which the specification demands a degraded MEDIUM pause on
backend failure. -/
def c1ev : Brain.BrainEvent :=
  { repo_full_name := ("r").toList,
    pr_number := ("1").toList,
    is_pull_request := true,
    user_message := some (("Context: Automatic Risk Analysis Trigger (Strict Analysis)").toList),
    user_comment := none,
    sender_name := ("u").toList,
    is_automatic_trigger := true,
    commit_sha := some (("sha").toList) }

set_option maxRecDepth 10000 in
/-- C1: the code fails open on a backend failure.  `call_groq_api`
catches the exception internally and returns the error text as the
analysis, `extract_risk_level` classifies that text as LOW, and the
automatic-trigger path then sets a success status, auto-merges and posts
a single comment — the `handle_fallback` MEDIUM-pause machinery (ticket,
notification, paused comment) is never invoked.  Evaluated at the
failing input: a backend timeout during an automatic-trigger analysis. -/
theorem C1_backend_failure_fails_open :
    (Brain.lambda_handler c1env c1ev).eff =
      [Brain.BEffect.setCommitStatus (("r").toList) (("sha").toList)
         (("pending").toList) (("Analyzing Risk (Gemma 3 12B)...").toList),
       Brain.BEffect.setCommitStatus (("r").toList) (("sha").toList)
         (("success").toList) (("Low Risk - Safe to Merge").toList),
       Brain.BEffect.mergePR (("r").toList) (("1").toList),
       Brain.BEffect.writer (Brain.WriterCall.postComment (("r").toList) (("1").toList)
         ((("Error calling AI Model: timed out").toList) ++
           ("\n\n✅ **Auto-Merge**: Low Risk. Merging automatically.").toList))] ∧
    (Brain.lambda_handler c1env c1ev).res =
      .ok ⟨200, ("Low Risk - Executed").toList⟩ ∧
    Brain.extract_risk_level (("Error calling AI Model: timed out").toList) =
      ("LOW").toList := by
  refine ⟨by decide, by rfl, by decide⟩

namespace Brain

/-- The collaborator invocations all succeed. -/
def WOk (env : BrainEnv) : Prop :=
  ∀ c, ∃ v, env.writerInvoke c = .ok v

/-- The computation does not raise. -/
def rOk {α : Type} (x : P α) : Prop := ∃ a, x.res = .ok a

/-- Every normal return carries HTTP status 200. -/
def all200 (x : P Res) : Prop := ∀ r, x.res = .ok r → r.statusCode = 200

/-- Returns normally with status 200. -/
def ok200 (x : P Res) : Prop := ∃ r, x.res = .ok r ∧ r.statusCode = 200

theorem ok200_of (x : P Res) (h1 : rOk x) (h2 : all200 x) : ok200 x := by
  obtain ⟨r, hr⟩ := h1
  exact ⟨r, hr, h2 r hr⟩

theorem rOk_pure {α : Type} (a : α) : rOk (Proc.pure a : P α) := ⟨a, rfl⟩

theorem rOk_bind {α β : Type} {x : P α} {f : α → P β}
    (hx : rOk x) (hf : ∀ a, rOk (f a)) : rOk (x >>= f) := by
  rw [Proc.monad_bind_eq]
  obtain ⟨a, ha⟩ := hx
  obtain ⟨b, hb⟩ := hf a
  refine ⟨b, ?_⟩
  rw [Proc.bind_res, ha]
  exact hb

theorem rOk_tryCatch {α : Type} {x : P α} {h : List Char → P α}
    (hh : ∀ e, rOk (h e)) : rOk (Proc.tryCatch x h) := by
  unfold Proc.tryCatch
  cases hx : x.res with
  | ok a => exact ⟨a, by simp only [hx]⟩
  | error e =>
    obtain ⟨b, hb⟩ := hh e
    exact ⟨b, by simp only [hx, hb]⟩

theorem all200_pure (b : List Char) : all200 (Proc.pure (⟨200, b⟩ : Res)) := by
  intro r hr
  cases hr
  rfl

theorem all200_bind {α : Type} {x : P α} {f : α → P Res}
    (hf : ∀ a, all200 (f a)) : all200 (x >>= f) := by
  intro r hr
  rw [Proc.monad_bind_eq, Proc.bind_res] at hr
  cases hx : x.res with
  | ok a =>
    rw [hx] at hr
    exact hf a r hr
  | error e => rw [hx] at hr; cases hr

theorem all200_tryCatch {x : P Res} {h : List Char → P Res}
    (hx : all200 x) (hh : ∀ e, all200 (h e)) : all200 (Proc.tryCatch x h) := by
  intro r hr
  unfold Proc.tryCatch at hr
  cases hres : x.res with
  | ok a =>
    rw [hres] at hr
    exact hx r hr
  | error e =>
    rw [hres] at hr
    exact hh e r hr

theorem rOk_invokeWriter {env : BrainEnv} (hW : WOk env) (c : WriterCall) :
    rOk (invokeWriter env c) := hW c

theorem rOk_post_comment {env : BrainEnv} (hW : WOk env) (repo pr t : List Char) :
    rOk (post_github_comment env repo pr t) := by
  unfold post_github_comment
  exact rOk_bind (rOk_invokeWriter hW _) (fun _ => rOk_pure ())

theorem rOk_set_commit_status (repo sha st d : List Char) :
    rOk (set_commit_status repo sha st d) := by
  unfold set_commit_status
  split
  · exact rOk_pure ()
  · exact ⟨(), rfl⟩

theorem rOk_update_pr_state (repo pr st : List Char) :
    rOk (update_pr_state repo pr st) := ⟨(), rfl⟩

theorem rOk_merge (env : BrainEnv) (repo pr : List Char) :
    rOk (merge_pull_request env repo pr) := ⟨env.mergeOk, rfl⟩

theorem rOk_groq (env : BrainEnv) (p : List Char) : rOk (call_groq_api env p) := by
  unfold call_groq_api
  split
  · exact rOk_pure _
  · exact rOk_pure _

end Brain

/-- Every normal result of the computation satisfies `Q`. -/
def Proc.resOkImp {ε α : Type} (x : Proc ε α) (Q : α → Prop) : Prop :=
  ∀ a, x.res = .ok a → Q a

theorem Proc.resOkImp_pure {ε α : Type} {Q : α → Prop} (a : α) (h : Q a) :
    Proc.resOkImp (Proc.pure a : Proc ε α) Q := by
  intro b hb
  cases hb
  exact h

theorem Proc.resOkImp_bind {ε α β : Type} {x : Proc ε α} {f : α → Proc ε β}
    {Q : β → Prop} (hf : ∀ a, Proc.resOkImp (f a) Q) :
    Proc.resOkImp (x >>= f) Q := by
  intro b hb
  rw [Proc.monad_bind_eq, Proc.bind_res] at hb
  cases hx : x.res with
  | ok a => rw [hx] at hb; exact hf a b hb
  | error e => rw [hx] at hb; cases hb

theorem Proc.resOkImp_bind_strong {ε α β : Type} {x : Proc ε α}
    {f : α → Proc ε β} {Q1 : α → Prop} {Q2 : β → Prop}
    (hx : Proc.resOkImp x Q1) (hf : ∀ a, Q1 a → Proc.resOkImp (f a) Q2) :
    Proc.resOkImp (x >>= f) Q2 := by
  intro b hb
  rw [Proc.monad_bind_eq, Proc.bind_res] at hb
  cases hres : x.res with
  | ok a => rw [hres] at hb; exact hf a (hx a hres) b hb
  | error e => rw [hres] at hb; cases hb

theorem Proc.resOkImp_tryCatch {ε α : Type} {x : Proc ε α}
    {h : List Char → Proc ε α} {Q : α → Prop}
    (hx : Proc.resOkImp x Q) (hh : ∀ e, Proc.resOkImp (h e) Q) :
    Proc.resOkImp (Proc.tryCatch x h) Q := by
  intro a ha
  unfold Proc.tryCatch at ha
  cases hres : x.res with
  | ok b => rw [hres] at ha; exact hx a ha
  | error e => rw [hres] at ha; exact hh e a ha

theorem Proc.resOkImp_raise {ε α : Type} {Q : α → Prop} (msg : List Char) :
    Proc.resOkImp (Proc.raise msg : Proc ε α) Q := by
  intro a ha
  cases ha

theorem Proc.resOkImp_emit {ε : Type} {Q : Unit → Prop} (e : ε) (h : Q ()) :
    Proc.resOkImp (Proc.emit e) Q := by
  intro a ha
  cases ha
  exact h

theorem Proc.resOkImp_of_forall {ε α : Type} {x : Proc ε α} {Q : α → Prop}
    (h : ∀ a, Q a) : Proc.resOkImp x Q := fun a _ => h a

theorem Proc.resOkImp_ite {ε α : Type} {c : Prop} [Decidable c]
    {x y : Proc ε α} {Q : α → Prop}
    (hx : Proc.resOkImp x Q) (hy : Proc.resOkImp y Q) :
    Proc.resOkImp (if c then x else y) Q := by
  by_cases h : c
  · rwa [if_pos h]
  · rwa [if_neg h]

theorem gateway_body_200 (ev : Gateway.GEvent) (env : Gateway.GEnv) :
    Proc.resOkImp (Gateway.gateway_body ev env) (fun r => r.statusCode = 200) := by
  unfold Gateway.gateway_body
  dsimp only
  refine Proc.resOkImp_ite (Proc.resOkImp_pure _ rfl) ?_
  refine Proc.resOkImp_ite ?_ ?_
  · cases hr : ev.ref with
    | none => exact Proc.resOkImp_pure _ rfl
    | some r =>
      exact Proc.resOkImp_ite
        (Proc.resOkImp_ite
          (Proc.resOkImp_bind (fun _ => Proc.resOkImp_pure _ rfl))
          (Proc.resOkImp_bind (fun _ => Proc.resOkImp_pure _ rfl)))
        (Proc.resOkImp_pure _ rfl)
  · refine Proc.resOkImp_ite ?_ ?_
    · cases hp : ev.pullRequest with
      | none => exact Proc.resOkImp_pure _ rfl
      | some pr =>
        exact Proc.resOkImp_bind
          (fun _ => Proc.resOkImp_bind (fun _ => Proc.resOkImp_pure _ rfl))
    · refine Proc.resOkImp_ite ?_ (Proc.resOkImp_pure _ rfl)
      refine Proc.resOkImp_ite (Proc.resOkImp_bind (fun _ =>
        Proc.resOkImp_bind (fun _ =>
          Proc.resOkImp_bind (fun _ => Proc.resOkImp_pure _ rfl)))) ?_
      refine Proc.resOkImp_ite (Proc.resOkImp_bind (fun _ =>
        Proc.resOkImp_bind (fun _ => Proc.resOkImp_pure _ rfl))) ?_
      refine Proc.resOkImp_ite
        (Proc.resOkImp_bind (fun _ => Proc.resOkImp_pure _ rfl)) ?_
      refine Proc.resOkImp_ite
        (Proc.resOkImp_bind (fun _ => Proc.resOkImp_pure _ rfl)) ?_
      refine Proc.resOkImp_ite
        (Proc.resOkImp_bind (fun _ => Proc.resOkImp_pure _ rfl)) ?_
      exact Proc.resOkImp_ite (Proc.resOkImp_raise _)
        (Proc.resOkImp_bind (fun _ => Proc.resOkImp_pure _ rfl))

theorem gateway_total_200 (ev : Gateway.GEvent) (env : Gateway.GEnv) :
    (Gateway.lambda_handler ev env).2.statusCode = 200 := by
  unfold Gateway.lambda_handler Proc.tryCatch
  cases h : (Gateway.gateway_body ev env).res with
  | ok r => simp only [h]; exact gateway_body_200 ev env r h
  | error e => simp only [h]; rfl

namespace Brain

theorem rOk_ite {c : Prop} [Decidable c] {α : Type} {x y : P α}
    (hx : rOk x) (hy : rOk y) : rOk (if c then x else y) := by
  by_cases h : c
  · rwa [if_pos h]
  · rwa [if_neg h]

theorem opt200_some (b : List Char) :
    ∀ r, (some (⟨200, b⟩ : Res) = some r) → r.statusCode = 200 := by
  intro r hr
  injection hr with h
  rw [← h]

theorem opt200_none : ∀ r, (none : Option Res) = some r → r.statusCode = 200 := by
  intro r hr
  nomatch hr

theorem sum200_inl {γ : Type} (b : List Char) :
    ∀ r, (Sum.inl (⟨200, b⟩ : Res) : Sum Res γ) = Sum.inl r → r.statusCode = 200 := by
  intro r hr
  injection hr with h
  rw [← h]

theorem sum200_inr {γ : Type} (x : γ) :
    ∀ r, (Sum.inr x : Sum Res γ) = Sum.inl r → r.statusCode = 200 := by
  intro r hr
  nomatch hr

theorem rOk_trigger_high {env : BrainEnv} (hW : WOk env)
    (user_msg repo pr_num analysis risk_level : List Char)
    (commit_sha : Option (List Char)) :
    rOk (trigger_high_risk_approval_smart env user_msg repo pr_num analysis
      risk_level commit_sha) := by
  unfold trigger_high_risk_approval_smart
  dsimp only
  refine rOk_bind ?_ (fun _ => ?_)
  · cases commit_sha with
    | none => exact rOk_pure ()
    | some sha =>
      exact rOk_ite (rOk_pure ())
        (rOk_bind (rOk_set_commit_status _ _ _ _) (fun _ => rOk_update_pr_state _ _ _))
  · refine rOk_bind (rOk_tryCatch (fun e => rOk_pure _)) (fun tid => ?_)
    refine rOk_bind (rOk_invokeWriter hW _) (fun _ => ?_)
    exact rOk_bind (rOk_post_comment hW _ _ _) (fun _ => rOk_pure _)

theorem all200_trigger_high (env : BrainEnv)
    (user_msg repo pr_num analysis risk_level : List Char)
    (commit_sha : Option (List Char)) :
    all200 (trigger_high_risk_approval_smart env user_msg repo pr_num analysis
      risk_level commit_sha) := by
  unfold trigger_high_risk_approval_smart
  dsimp only
  exact all200_bind (fun _ => all200_bind (fun _ => all200_bind (fun _ =>
    all200_bind (fun _ => all200_pure _))))

theorem rOk_handle_fallback {env : BrainEnv} (hW : WOk env)
    (user_msg repo pr_num e : List Char) (commit_sha : Option (List Char)) :
    rOk (handle_fallback env user_msg repo pr_num e commit_sha) :=
  rOk_trigger_high hW user_msg repo pr_num fallback_analysis _ commit_sha

theorem all200_handle_fallback (env : BrainEnv)
    (user_msg repo pr_num e : List Char) (commit_sha : Option (List Char)) :
    all200 (handle_fallback env user_msg repo pr_num e commit_sha) :=
  all200_trigger_high env user_msg repo pr_num fallback_analysis _ commit_sha

theorem rOk_bulkDeleteLoop (env : BrainEnv) (repo : List Char) :
    ∀ (bs : List (List Char)) (n : Nat), rOk (bulkDeleteLoop env repo bs n) := by
  intro bs
  induction bs with
  | nil => intro n; exact rOk_pure n
  | cons b bs ih =>
    intro n
    unfold bulkDeleteLoop
    exact rOk_bind (rOk_tryCatch (fun _ => rOk_pure _)) (fun n2 => ih n2)

theorem rOk_try_bypass {env : BrainEnv} (hW : WOk env)
    (user_msg repo pr_num : List Char) :
    rOk (try_bypass_commands env user_msg repo pr_num) := by
  unfold try_bypass_commands
  dsimp only
  refine rOk_ite ?_ ?_
  · refine rOk_tryCatch (fun e => ?_)
    exact rOk_bind (rOk_post_comment hW _ _ _) (fun _ => rOk_pure _)
  · cases hs : search_bypass_intent user_msg with
    | none => exact rOk_pure none
    | some t =>
      obtain ⟨av, rt, tn⟩ := t
      refine rOk_ite (rOk_pure none) ?_
      refine rOk_ite (rOk_pure none) ?_
      refine rOk_ite ?_ (rOk_pure none)
      refine rOk_bind (rOk_invokeWriter hW _) (fun _ => ?_)
      exact rOk_bind (rOk_post_comment hW _ _ _) (fun _ => rOk_pure _)

theorem try_bypass_200 (env : BrainEnv) (user_msg repo pr_num : List Char) :
    Proc.resOkImp (try_bypass_commands env user_msg repo pr_num)
      (fun o => ∀ r, o = some r → r.statusCode = 200) := by
  unfold try_bypass_commands
  dsimp only
  refine Proc.resOkImp_ite ?_ ?_
  · refine Proc.resOkImp_tryCatch ?_ (fun e => ?_)
    · refine Proc.resOkImp_bind (fun branches => ?_)
      refine Proc.resOkImp_ite ?_ ?_
      · exact Proc.resOkImp_bind (fun _ => Proc.resOkImp_pure _ (opt200_some _))
      · exact Proc.resOkImp_bind (fun dc => Proc.resOkImp_bind (fun _ =>
          Proc.resOkImp_pure _ (opt200_some _)))
    · exact Proc.resOkImp_bind (fun _ => Proc.resOkImp_pure _ (opt200_some _))
  · cases hs : search_bypass_intent user_msg with
    | none => exact Proc.resOkImp_pure _ opt200_none
    | some t =>
      obtain ⟨av, rt, tn⟩ := t
      refine Proc.resOkImp_ite (Proc.resOkImp_pure _ opt200_none) ?_
      refine Proc.resOkImp_ite (Proc.resOkImp_pure _ opt200_none) ?_
      refine Proc.resOkImp_ite ?_ (Proc.resOkImp_pure _ opt200_none)
      exact Proc.resOkImp_bind (fun _ => Proc.resOkImp_bind (fun _ =>
        Proc.resOkImp_pure _ (opt200_some _)))

theorem rOk_handle_rejection {env : BrainEnv} (hW : WOk env)
    (user_msg repo pr_num sender_name : List Char) :
    rOk (handle_rejection env user_msg repo pr_num sender_name) := by
  unfold handle_rejection
  dsimp only
  refine rOk_bind ?_ (fun _ =>
    rOk_bind (rOk_post_comment hW _ _ _) (fun _ => rOk_pure _))
  split
  · exact rOk_bind (rOk_invokeWriter hW _) (fun _ => rOk_pure ())
  · exact rOk_pure ()

theorem all200_handle_rejection (env : BrainEnv)
    (user_msg repo pr_num sender_name : List Char) :
    all200 (handle_rejection env user_msg repo pr_num sender_name) := by
  unfold handle_rejection
  dsimp only
  exact all200_bind (fun _ => all200_bind (fun _ => all200_pure _))

theorem rOk_resolve {env : BrainEnv} (hW : WOk env) (repo pr_num : List Char) :
    rOk (resolve_branch env repo pr_num) := by
  unfold resolve_branch
  cases hp : env.prFetch with
  | ok pr => exact rOk_pure _
  | error e =>
    cases hf : approval_candidates.find? env.branchExists with
    | some b => exact rOk_pure _
    | none =>
      dsimp only
      refine rOk_tryCatch (fun e2 => ?_)
      exact rOk_bind (rOk_post_comment hW _ _ _) (fun _ => rOk_pure _)

theorem resolve_branch_inl_200 (env : BrainEnv) (repo pr_num : List Char) :
    Proc.resOkImp (resolve_branch env repo pr_num)
      (fun s => ∀ r, s = Sum.inl r → r.statusCode = 200) := by
  unfold resolve_branch
  cases hp : env.prFetch with
  | ok pr => exact Proc.resOkImp_pure _ (sum200_inr _)
  | error e =>
    cases hf : approval_candidates.find? env.branchExists with
    | some b => exact Proc.resOkImp_pure _ (sum200_inr _)
    | none =>
      dsimp only
      refine Proc.resOkImp_tryCatch ?_ (fun e2 => ?_)
      · exact Proc.resOkImp_bind (fun _ => Proc.resOkImp_pure _ (sum200_inr _))
      · exact Proc.resOkImp_bind (fun _ => Proc.resOkImp_pure _ (sum200_inl _))

theorem rOk_execute {env : BrainEnv} (hW : WOk env)
    (repo pr_num branch_name request_text target_file sender_name : List Char) :
    rOk (execute_file_update env repo pr_num branch_name request_text
      target_file sender_name) := by
  unfold execute_file_update
  cases hf : env.fileFetch target_file branch_name with
  | error fe =>
    cases fe with
    | http code reason => exact rOk_ite (rOk_pure _) (rOk_pure _)
    | other msg => exact rOk_pure _
  | ok cf =>
    refine rOk_bind (rOk_groq env _) (fun raw => ?_)
    dsimp only
    exact rOk_tryCatch (fun e => rOk_pure _)

theorem execute_inl_200 (env : BrainEnv)
    (repo pr_num branch_name request_text target_file sender_name : List Char) :
    Proc.resOkImp (execute_file_update env repo pr_num branch_name request_text
      target_file sender_name)
      (fun s => ∀ r, s = Sum.inl r → r.statusCode = 200) := by
  unfold execute_file_update
  cases hf : env.fileFetch target_file branch_name with
  | error fe =>
    cases fe with
    | http code reason =>
      exact Proc.resOkImp_ite (Proc.resOkImp_pure _ (sum200_inr _))
        (Proc.resOkImp_pure _ (sum200_inr _))
    | other msg => exact Proc.resOkImp_pure _ (sum200_inr _)
  | ok cf =>
    refine Proc.resOkImp_bind (fun raw => ?_)
    dsimp only
    refine Proc.resOkImp_tryCatch ?_ (fun e => Proc.resOkImp_pure _ (sum200_inr _))
    exact Proc.resOkImp_bind (fun resp => Proc.resOkImp_bind (fun _ =>
      Proc.resOkImp_pure _ (sum200_inl _)))

theorem rOk_unblock {env : BrainEnv} (hW : WOk env)
    (repo pr_num sender_name jira_ticket : List Char) :
    rOk (unblock_flow env repo pr_num sender_name jira_ticket) := by
  unfold unblock_flow
  dsimp only
  refine rOk_bind (rOk_ite (rOk_tryCatch (fun _ => rOk_pure ())) (rOk_pure ()))
    (fun _ => ?_)
  refine rOk_bind (rOk_post_comment hW _ _ _) (fun _ => ?_)
  refine rOk_bind (rOk_update_pr_state _ _ _) (fun _ => ?_)
  refine rOk_bind (rOk_merge env _ _) (fun m => ?_)
  exact rOk_bind (rOk_post_comment hW _ _ _) (fun _ => rOk_pure _)

theorem all200_unblock (env : BrainEnv)
    (repo pr_num sender_name jira_ticket : List Char) :
    all200 (unblock_flow env repo pr_num sender_name jira_ticket) := by
  unfold unblock_flow
  dsimp only
  exact all200_bind (fun _ => all200_bind (fun _ => all200_bind (fun _ =>
    all200_bind (fun _ => all200_bind (fun _ => all200_pure _)))))

theorem rOk_wrapup {env : BrainEnv} (hW : WOk env)
    (repo pr_num sender_name jira_ticket request_text execution_log : List Char) :
    rOk (approval_wrapup env repo pr_num sender_name jira_ticket request_text
      execution_log) := by
  unfold approval_wrapup
  dsimp only
  refine rOk_bind (rOk_ite (rOk_tryCatch (fun _ => rOk_pure ())) (rOk_pure ()))
    (fun _ => ?_)
  exact rOk_bind (rOk_post_comment hW _ _ _) (fun _ => rOk_pure _)

theorem all200_wrapup (env : BrainEnv)
    (repo pr_num sender_name jira_ticket request_text execution_log : List Char) :
    all200 (approval_wrapup env repo pr_num sender_name jira_ticket request_text
      execution_log) := by
  unfold approval_wrapup
  dsimp only
  exact all200_bind (fun _ => all200_bind (fun _ => all200_pure _))

theorem rOk_approval_body {env : BrainEnv} (hW : WOk env)
    (user_msg repo pr_num sender_name : List Char) :
    rOk (approval_body env user_msg repo pr_num sender_name) := by
  unfold approval_body
  refine rOk_bind (rOk_resolve hW _ _) (fun resolved => ?_)
  cases resolved with
  | inl r => exact rOk_pure r
  | inr ro =>
    dsimp only
    refine rOk_bind ?_ (fun _ => ?_)
    · split
      · exact rOk_ite (rOk_pure ()) (rOk_set_commit_status _ _ _ _)
      · exact rOk_pure ()
    · refine rOk_ite (rOk_unblock hW _ _ _ _) ?_
      dsimp only
      split
      · refine rOk_bind (rOk_execute hW _ _ _ _ _ _) (fun outcome => ?_)
        cases outcome with
        | inl r => exact rOk_pure r
        | inr log => exact rOk_wrapup hW _ _ _ _ _ _
      · refine rOk_bind (rOk_pure _) (fun outcome => ?_)
        cases outcome with
        | inl r => exact rOk_pure r
        | inr log => exact rOk_wrapup hW _ _ _ _ _ _

theorem all200_approval_body (env : BrainEnv)
    (user_msg repo pr_num sender_name : List Char) :
    all200 (approval_body env user_msg repo pr_num sender_name) := by
  unfold approval_body
  refine Proc.resOkImp_bind_strong (resolve_branch_inl_200 env _ _)
    (fun resolved hres => ?_)
  cases resolved with
  | inl r => exact Proc.resOkImp_pure r (hres r rfl)
  | inr ro =>
    dsimp only
    refine Proc.resOkImp_bind (fun _ => ?_)
    refine Proc.resOkImp_ite (all200_unblock env _ _ _ _) ?_
    dsimp only
    split
    · refine Proc.resOkImp_bind_strong (execute_inl_200 env _ _ _ _ _ _)
        (fun outcome ho => ?_)
      cases outcome with
      | inl r => exact Proc.resOkImp_pure r (ho r rfl)
      | inr log => exact all200_wrapup env _ _ _ _ _ _
    · refine Proc.resOkImp_bind_strong
        ((Proc.resOkImp_pure _ (sum200_inr _)) :
          Proc.resOkImp _ (fun s => ∀ r, s = Sum.inl r → r.statusCode = 200))
        (fun outcome ho => ?_)
      cases outcome with
      | inl r => exact Proc.resOkImp_pure r (ho r rfl)
      | inr log => exact all200_wrapup env _ _ _ _ _ _

theorem rOk_handle_approval {env : BrainEnv} (hW : WOk env)
    (user_msg repo pr_num sender_name : List Char) :
    rOk (handle_approval env user_msg repo pr_num sender_name) := by
  unfold handle_approval
  refine rOk_tryCatch (fun e => ?_)
  exact rOk_bind (rOk_post_comment hW _ _ _) (fun _ => rOk_pure _)

theorem all200_handle_approval (env : BrainEnv)
    (user_msg repo pr_num sender_name : List Char) :
    all200 (handle_approval env user_msg repo pr_num sender_name) := by
  unfold handle_approval
  refine Proc.resOkImp_tryCatch (all200_approval_body env _ _ _ _) (fun e => ?_)
  exact Proc.resOkImp_bind (fun _ => Proc.resOkImp_pure _ rfl)

theorem rOk_brain_handler {env : BrainEnv} (hW : WOk env) (ev : BrainEvent) :
    rOk (lambda_handler env ev) := by
  unfold lambda_handler
  dsimp only
  refine rOk_bind (rOk_ite (rOk_set_commit_status _ _ _ _) (rOk_pure ()))
    (fun _ => ?_)
  refine rOk_ite (rOk_handle_approval hW _ _ _ _) ?_
  refine rOk_ite (rOk_handle_rejection hW _ _ _ _) ?_
  refine rOk_bind (rOk_try_bypass hW _ _ _) (fun bypass => ?_)
  cases bypass with
  | some r => exact rOk_pure r
  | none => exact rOk_tryCatch (fun e => rOk_handle_fallback hW _ _ _ _ _)

theorem all200_brain_handler (env : BrainEnv) (ev : BrainEvent) :
    all200 (lambda_handler env ev) := by
  unfold Brain.lambda_handler
  dsimp only
  refine Proc.resOkImp_bind (fun _ => ?_)
  refine Proc.resOkImp_ite (all200_handle_approval env _ _ _ _) ?_
  refine Proc.resOkImp_ite (all200_handle_rejection env _ _ _ _) ?_
  refine Proc.resOkImp_bind_strong (try_bypass_200 env _ _ _) (fun bypass hb => ?_)
  cases bypass with
  | some r => exact Proc.resOkImp_pure r (hb r rfl)
  | none =>
    refine Proc.resOkImp_tryCatch ?_ (fun e => all200_handle_fallback env _ _ _ _ _)
    refine Proc.resOkImp_bind (fun analysis => ?_)
    dsimp only
    refine Proc.resOkImp_ite (all200_trigger_high env _ _ _ _ _ _) ?_
    exact Proc.resOkImp_bind (fun _ => Proc.resOkImp_pure _ rfl)

theorem brain_total_ok200 {env : BrainEnv} (hW : WOk env) (ev : BrainEvent) :
    ok200 (lambda_handler env ev) :=
  ok200_of _ (rOk_brain_handler hW ev) (all200_brain_handler env ev)

end Brain

/-- A controller environment whose writer invocations all raise, and
whose comment fetch yields no comments. -/
def c7bad_env : Brain.BrainEnv :=
  { diffFetch := .ok []
    groq := fun _ => .ok []
    prFetch := .error (("404 not found").toList)
    branchExists := fun _ => false
    commentsFetch := .ok []
    fileFetch := fun _ _ => .error (Brain.FetchErr.other [])
    branchList := .ok []
    writerInvoke := fun _ => .error (("boto3 client error").toList)
    mergeOk := false
    kb_architecture_map := []
    kb_incident_history := []
    kb_deployment_policies := []
    now := 0 }

/-- The same environment with writer invocations succeeding. -/
def c7ok_env : Brain.BrainEnv :=
  { c7bad_env with writerInvoke := fun _ => .ok (("SUCCESS").toList) }

/-- A rejection event: a manual comment containing `rejected`. -/
def c7ev : Brain.BrainEvent :=
  { repo_full_name := ("o/r").toList
    pr_number := ("1").toList
    is_pull_request := false
    user_message := some (("rejected").toList)
    user_comment := none
    sender_name := ("u").toList
    is_automatic_trigger := false
    commit_sha := none }

/-- C7 (amended): the gateway handler always answers HTTP 200 — its whole
body runs in a catch-all try.  The controller handler answers HTTP 200
provided every writer invocation returns normally; the original claim is
wrong without that proviso because the rejection and approval comment
posts invoke the writer outside any try. -/
theorem C7_no_uncaught_to_boundary_amended :
    (∀ (ev : Gateway.GEvent) (env : Gateway.GEnv),
        (Gateway.lambda_handler ev env).2.statusCode = 200) ∧
    (∀ (env : Brain.BrainEnv) (ev : Brain.BrainEvent),
        Brain.WOk env → Brain.ok200 (Brain.lambda_handler env ev)) :=
  ⟨fun ev env => gateway_total_200 ev env,
   fun _ ev hW => Brain.brain_total_ok200 hW ev⟩

/-- C7 witness: the gateway part at a concrete event, and the controller
part at a rejection event under an environment whose writer calls all
succeed. -/
theorem C7_no_uncaught_to_boundary_amended_witness :
    (Gateway.lambda_handler
      ⟨true, ("o/r").toList, ("@pr-agent hello").toList, ("u").toList,
        some 1, none, false, none, ("created").toList⟩
      ⟨fun _ => false, fun _ => .ok ()⟩).2.statusCode = 200 ∧
    Brain.ok200 (Brain.lambda_handler c7ok_env c7ev) :=
  ⟨C7_no_uncaught_to_boundary_amended.1 _ _,
   C7_no_uncaught_to_boundary_amended.2 c7ok_env c7ev
     (fun _ => ⟨(("SUCCESS").toList), rfl⟩)⟩

/-- C7 counterexample: with a raising writer invocation, the rejection
path propagates the exception to the event boundary — the final comment
post of `handle_rejection` is not inside any try. -/
theorem C7_counterexample :
    (Brain.lambda_handler c7bad_env c7ev).res =
      Except.error (("boto3 client error").toList) := by rfl

/-- C8: branch resolution on resume prefers the fetched PR's head branch;
when the PR fetch raises it probes the candidate names `test-v19` down to
`test-v1` in order; when none exists it creates
`approved-change-<time%10000>` from `main` and uses it. -/
theorem C8_resume_branch_resolution_order :
    ∀ (env : Brain.BrainEnv) (repo pr_num : List Char),
      (∀ pr, env.prFetch = .ok pr →
        Brain.resolve_branch env repo pr_num =
          ⟨[], .ok (.inr ⟨pr.headRef, pr.title, pr.body⟩)⟩) ∧
      (∀ e b, env.prFetch = .error e →
        Brain.approval_candidates.find? env.branchExists = some b →
        Brain.resolve_branch env repo pr_num = ⟨[], .ok (.inr ⟨b, [], []⟩)⟩) ∧
      (∀ e, env.prFetch = .error e →
        Brain.approval_candidates.find? env.branchExists = none →
        (∀ c, ∃ v, env.writerInvoke c = .ok v) →
        Brain.resolve_branch env repo pr_num =
          ⟨[Brain.BEffect.writer (Brain.WriterCall.createBranch repo
              ((("approved-change-").toList) ++ Txt.natToStr (env.now % 10000))
              (("main").toList))],
           .ok (.inr ⟨(("approved-change-").toList) ++ Txt.natToStr (env.now % 10000),
             [], []⟩)⟩) := by
  intro env repo pr_num
  refine ⟨?_, ?_, ?_⟩
  · intro pr hpr
    unfold Brain.resolve_branch
    rw [hpr]
    rfl
  · intro e b hpr hfind
    unfold Brain.resolve_branch
    rw [hpr, hfind]
    rfl
  · intro e hpr hfind hW
    obtain ⟨v, hv⟩ := hW (Brain.WriterCall.createBranch repo
      ((("approved-change-").toList) ++ Txt.natToStr (env.now % 10000))
      (("main").toList))
    unfold Brain.resolve_branch
    rw [hpr, hfind]
    simp only [Proc.tryCatch, Proc.monad_bind_eq, Proc.bind, Brain.invokeWriter,
      hv, Proc.pure, List.append_nil]

/-- A resume environment whose PR fetch succeeds. -/
def c8env1 : Brain.BrainEnv :=
  { c7ok_env with prFetch := .ok ⟨("feat-x").toList, ("T").toList, ("B").toList⟩ }

/-- A resume environment whose PR fetch raises and where `test-v3`
exists. -/
def c8env2 : Brain.BrainEnv :=
  { c7ok_env with branchExists := fun b => b == ("test-v3").toList }

/-- A resume environment whose PR fetch raises and no candidate exists. -/
def c8env3 : Brain.BrainEnv := { c7ok_env with now := 12042 }

/-- C8 witness: the three resolution regimes at concrete environments. -/
theorem C8_resume_branch_resolution_order_witness :
    Brain.resolve_branch c8env1 (("o/r").toList) (("1").toList) =
      ⟨[], .ok (.inr ⟨("feat-x").toList, ("T").toList, ("B").toList⟩)⟩ ∧
    Brain.resolve_branch c8env2 (("o/r").toList) (("1").toList) =
      ⟨[], .ok (.inr ⟨("test-v3").toList, [], []⟩)⟩ ∧
    Brain.resolve_branch c8env3 (("o/r").toList) (("1").toList) =
      ⟨[Brain.BEffect.writer (Brain.WriterCall.createBranch (("o/r").toList)
          (("approved-change-2042").toList) (("main").toList))],
       .ok (.inr ⟨("approved-change-2042").toList, [], []⟩)⟩ :=
  ⟨(C8_resume_branch_resolution_order c8env1 _ _).1 _ rfl,
   by
     have h := (C8_resume_branch_resolution_order c8env2 (("o/r").toList)
       (("1").toList)).2.1 (("404 not found").toList) (("test-v3").toList)
       rfl (by decide)
     exact h,
   by
     have h := (C8_resume_branch_resolution_order c8env3 (("o/r").toList)
       (("1").toList)).2.2 (("404 not found").toList) rfl (by decide)
       (fun c => ⟨(("SUCCESS").toList), rfl⟩)
     simpa using h⟩

theorem scan_comments_no_marker :
    ∀ (bodies : List (List Char)),
      (∀ b ∈ bodies,
        (Txt.containsSub (("AI Risk Analysis").toList) b ||
         Txt.containsSub (("Fallback Mode").toList) b) = false) →
      ∀ st, Brain.scan_comments bodies st = st := by
  intro bodies
  induction bodies with
  | nil => intro _ st; rfl
  | cons b rest ih =>
    intro h st
    unfold Brain.scan_comments
    rw [h b (List.mem_cons_self b rest)]
    exact ih (fun x hx => h x (List.mem_cons_of_mem _ hx)) st

/-- C9: when no comment carries a recovery marker the newest-first scan
returns its initial state (`UNKNOWN` ticket, nothing recovered), the
request-text recovery falls back to the PR title, and the approval
handler still returns a 200 success — a degraded success, not an
error. -/
theorem C9_no_token_falls_back_to_title_and_unknown :
    ∀ (env : Brain.BrainEnv) (user_msg repo pr_num sender : List Char)
      (bodies : List (List Char)) (pr : Brain.PRInfo),
      env.commentsFetch = .ok bodies →
      (∀ b ∈ bodies,
        (Txt.containsSub (("AI Risk Analysis").toList) b ||
         Txt.containsSub (("Fallback Mode").toList) b) = false) →
      Txt.containsSub (("Context:").toList) user_msg = false →
      env.prFetch = .ok pr →
      Brain.WOk env →
      Brain.scan_comments bodies ⟨("UNKNOWN").toList, none, none⟩ =
        ⟨("UNKNOWN").toList, none, none⟩ ∧
      Brain.recover_request_text user_msg pr.title none = pr.title ∧
      Brain.ok200 (Brain.handle_approval env user_msg repo pr_num sender) := by
  intro env user_msg repo pr_num sender bodies pr hcf hm hctx hpr hW
  refine ⟨scan_comments_no_marker bodies hm _, ?_, ?_⟩
  · unfold Brain.recover_request_text
    rw [hctx]
    rfl
  · exact Brain.ok200_of _ (Brain.rOk_handle_approval hW _ _ _ _)
      (Brain.all200_handle_approval env _ _ _ _)

/-- An approval-resume environment with a fetchable PR and only
marker-free comments. -/
def c9env : Brain.BrainEnv :=
  { c7ok_env with
    prFetch := .ok ⟨("feat-x").toList, ("Update the config file").toList, []⟩
    commentsFetch := .ok [("hello world").toList, ("lgtm").toList] }

/-- C9 witness: the fallback regime at a concrete environment. -/
theorem C9_no_token_falls_back_to_title_and_unknown_witness :
    Brain.scan_comments [("hello world").toList, ("lgtm").toList]
      ⟨("UNKNOWN").toList, none, none⟩ = ⟨("UNKNOWN").toList, none, none⟩ ∧
    Brain.recover_request_text (("approved").toList)
      (("Update the config file").toList) none = ("Update the config file").toList ∧
    Brain.ok200 (Brain.handle_approval c9env (("approved").toList) (("o/r").toList)
      (("1").toList) (("u").toList)) :=
  C9_no_token_falls_back_to_title_and_unknown c9env (("approved").toList)
    (("o/r").toList) (("1").toList) (("u").toList)
    [("hello world").toList, ("lgtm").toList]
    ⟨("feat-x").toList, ("Update the config file").toList, []⟩
    rfl (by decide) (by decide) rfl
    (fun _ => ⟨(("SUCCESS").toList), rfl⟩)

/-- Effects that gate the PR: a commit status or a PR state change. -/
def pauseGateEffect : Brain.BEffect → Bool
  | .setCommitStatus _ _ _ _ => true
  | .updatePRState _ _ _ => true
  | _ => false

/-- A governance-ticket creation invocation. -/
def ticketEffect : Brain.BEffect → Bool
  | .writer (.jiraCreate _ _ _ _ _) => true
  | _ => false

/-- An approval-notification invocation. -/
def emailEffect : Brain.BEffect → Bool
  | .writer (.sendEmail _ _ _ _ _) => true
  | _ => false

/-- A comment-post invocation. -/
def commentEffect : Brain.BEffect → Bool
  | .writer (.postComment _ _ _) => true
  | _ => false

/-- C4 (amended): with a non-empty commit sha recorded in the event the
MEDIUM/HIGH pause sets a failure status, closes the PR, creates exactly
one ticket, sends exactly one notification carrying the fresh
continuation token, and posts exactly one paused comment carrying the
same token.  Without a sha the status and close are skipped (see the
counterexample). -/
theorem C4_medium_high_pause_amended :
    ∀ (env : Brain.BrainEnv)
      (user_msg repo pr_num analysis risk_level s : List Char),
      s ≠ [] → Brain.WOk env →
      ∃ ticket_id,
        Brain.trigger_high_risk_approval_smart env user_msg repo pr_num analysis
          risk_level (some s) =
        ⟨[Brain.BEffect.setCommitStatus repo s (("failure").toList)
            (("High Risk - Approval Required").toList),
          Brain.BEffect.updatePRState repo pr_num (("closed").toList),
          Brain.BEffect.writer (.jiraCreate repo pr_num risk_level repo
            ((("AI RISK ANALYSIS:\n").toList) ++ analysis)),
          Brain.BEffect.writer (.sendEmail repo pr_num risk_level repo
            (analysis ++ ("\n\n[ACTION: ai_analyzed_action]\n[PARAMS: ").toList ++
              Token.encodeToken ⟨user_msg, ticket_id, repo, pr_num, some s⟩ ++
              ("]").toList)),
          Brain.BEffect.writer (.postComment repo pr_num
            ((("**🤖 AI Risk Analysis (Powered by Llama 3 70B)**\n\n**Jira Ticket:** ").toList) ++
              ticket_id ++ ("\n\n").toList ++ analysis ++
              ("\n\n⏸️ **Paused:** Waiting for approval via email.\n \n<!-- params: ").toList ++
              Token.encodeToken ⟨user_msg, ticket_id, repo, pr_num, some s⟩ ++
              (" -->\n").toList))],
         .ok ⟨200, ("High Risk Approval Flow Triggered").toList⟩⟩ := by
  intro env user_msg repo pr_num analysis risk_level s hs hW
  have hse : s.isEmpty = false := by
    cases s with
    | nil => exact absurd rfl hs
    | cons c cs => rfl
  obtain ⟨jv, hjv⟩ := hW (Brain.WriterCall.jiraCreate repo pr_num risk_level repo
    ((("AI RISK ANALYSIS:\n").toList) ++ analysis))
  cases hscr : Brain.searchScrum jv with
  | some t =>
    obtain ⟨v2, hev⟩ := hW (Brain.WriterCall.sendEmail repo pr_num risk_level repo
      (analysis ++ ("\n\n[ACTION: ai_analyzed_action]\n[PARAMS: ").toList ++
        Token.encodeToken ⟨user_msg, t, repo, pr_num, some s⟩ ++ ("]").toList))
    obtain ⟨v3, hcv⟩ := hW (Brain.WriterCall.postComment repo pr_num
      ((("**🤖 AI Risk Analysis (Powered by Llama 3 70B)**\n\n**Jira Ticket:** ").toList) ++
        t ++ ("\n\n").toList ++ analysis ++
        ("\n\n⏸️ **Paused:** Waiting for approval via email.\n \n<!-- params: ").toList ++
        Token.encodeToken ⟨user_msg, t, repo, pr_num, some s⟩ ++ (" -->\n").toList))
    refine ⟨t, ?_⟩
    unfold Brain.trigger_high_risk_approval_smart
    simp only [Proc.monad_bind_eq, Proc.bind, Proc.tryCatch, Proc.pure,
      Brain.invokeWriter, Brain.set_commit_status, Brain.update_pr_state,
      Brain.post_github_comment, hse, hjv, hscr, hev, hcv,
      Bool.false_eq_true, if_false, List.cons_append, List.nil_append,
      List.append_nil]
  | none =>
    obtain ⟨v2, hev⟩ := hW (Brain.WriterCall.sendEmail repo pr_num risk_level repo
      (analysis ++ ("\n\n[ACTION: ai_analyzed_action]\n[PARAMS: ").toList ++
        Token.encodeToken ⟨user_msg, (("SCRUM-").toList) ++ Txt.natToStr (env.now % 1000),
          repo, pr_num, some s⟩ ++ ("]").toList))
    obtain ⟨v3, hcv⟩ := hW (Brain.WriterCall.postComment repo pr_num
      ((("**🤖 AI Risk Analysis (Powered by Llama 3 70B)**\n\n**Jira Ticket:** ").toList) ++
        ((("SCRUM-").toList) ++ Txt.natToStr (env.now % 1000)) ++ ("\n\n").toList ++ analysis ++
        ("\n\n⏸️ **Paused:** Waiting for approval via email.\n \n<!-- params: ").toList ++
        Token.encodeToken ⟨user_msg, (("SCRUM-").toList) ++ Txt.natToStr (env.now % 1000),
          repo, pr_num, some s⟩ ++ (" -->\n").toList))
    refine ⟨(("SCRUM-").toList) ++ Txt.natToStr (env.now % 1000), ?_⟩
    unfold Brain.trigger_high_risk_approval_smart
    simp only [Proc.monad_bind_eq, Proc.bind, Proc.tryCatch, Proc.pure,
      Brain.invokeWriter, Brain.set_commit_status, Brain.update_pr_state,
      Brain.post_github_comment, hse, hjv, hscr, hev, hcv,
      Bool.false_eq_true, if_false, List.cons_append, List.nil_append,
      List.append_nil]

/-- C4 witness: the amended pause shape at concrete inputs (the probe
ticket reply `SUCCESS` has no ticket label, so the default fresh id
`SCRUM-0` is kept). -/
theorem C4_medium_high_pause_amended_witness :
    ∃ ticket_id,
      Brain.trigger_high_risk_approval_smart c7ok_env (("change the schema").toList)
        (("o/r").toList) (("7").toList) (("RISK LEVEL: HIGH").toList)
        (("HIGH").toList) (some (("abc123").toList)) =
      ⟨[Brain.BEffect.setCommitStatus (("o/r").toList) (("abc123").toList)
          (("failure").toList) (("High Risk - Approval Required").toList),
        Brain.BEffect.updatePRState (("o/r").toList) (("7").toList) (("closed").toList),
        Brain.BEffect.writer (.jiraCreate (("o/r").toList) (("7").toList)
          (("HIGH").toList) (("o/r").toList)
          ((("AI RISK ANALYSIS:\n").toList) ++ ("RISK LEVEL: HIGH").toList)),
        Brain.BEffect.writer (.sendEmail (("o/r").toList) (("7").toList)
          (("HIGH").toList) (("o/r").toList)
          ((("RISK LEVEL: HIGH").toList) ++
            ("\n\n[ACTION: ai_analyzed_action]\n[PARAMS: ").toList ++
            Token.encodeToken ⟨("change the schema").toList, ticket_id,
              ("o/r").toList, ("7").toList, some (("abc123").toList)⟩ ++
            ("]").toList)),
        Brain.BEffect.writer (.postComment (("o/r").toList) (("7").toList)
          ((("**🤖 AI Risk Analysis (Powered by Llama 3 70B)**\n\n**Jira Ticket:** ").toList) ++
            ticket_id ++ ("\n\n").toList ++ ("RISK LEVEL: HIGH").toList ++
            ("\n\n⏸️ **Paused:** Waiting for approval via email.\n \n<!-- params: ").toList ++
            Token.encodeToken ⟨("change the schema").toList, ticket_id,
              ("o/r").toList, ("7").toList, some (("abc123").toList)⟩ ++
            (" -->\n").toList))],
       .ok ⟨200, ("High Risk Approval Flow Triggered").toList⟩⟩ :=
  C4_medium_high_pause_amended c7ok_env (("change the schema").toList)
    (("o/r").toList) (("7").toList) (("RISK LEVEL: HIGH").toList)
    (("HIGH").toList) (("abc123").toList) (by decide)
    (fun _ => ⟨(("SUCCESS").toList), rfl⟩)

/-- A controller environment whose analysis backend answers MEDIUM. -/
def c4env : Brain.BrainEnv :=
  { c7ok_env with
    groq := fun _ => .ok (("RISK LEVEL: MEDIUM\nREASONING: schema change").toList) }

/-- A manual MEDIUM-risk request that carries no commit sha. -/
def c4ev : Brain.BrainEvent :=
  { repo_full_name := ("o/r").toList
    pr_number := ("7").toList
    is_pull_request := false
    user_message := some (("please change the db schema").toList)
    user_comment := none
    sender_name := ("u").toList
    is_automatic_trigger := false
    commit_sha := none }

set_option maxRecDepth 10000 in
/-- C4 counterexample: a MEDIUM verdict on an event without a commit sha
creates the ticket, the notification and the paused comment, but sets no
commit status and never closes the PR — the status and close are gated on
the presence of a sha, contradicting the unconditional claim. -/
theorem C4_counterexample :
    Brain.extract_risk_level
      (("RISK LEVEL: MEDIUM\nREASONING: schema change").toList) = ("MEDIUM").toList ∧
    (Brain.lambda_handler c4env c4ev).eff.filter pauseGateEffect = [] ∧
    ((Brain.lambda_handler c4env c4ev).eff.filter ticketEffect).length = 1 ∧
    ((Brain.lambda_handler c4env c4ev).eff.filter emailEffect).length = 1 ∧
    ((Brain.lambda_handler c4env c4ev).eff.filter commentEffect).length = 1 := by
  refine ⟨by decide, by decide, by decide, by decide, by decide⟩

/-- C5 (amended): the writer's bulk delete — the path the gateway's
bulk-delete intent reaches — always preserves `main` and `master` on top
of the parsed exception list.  The controller's own bulk fast path only
guarantees `main`: everything else, `master` included, is deleted (see
the counterexample). -/
theorem C5_bulk_delete_keep_set_amended :
    (∀ (keep branches : List (List Char)) (b : List Char),
        b ∈ Writer.delete_all_branches_deleted keep branches →
        Txt.lowerL b ≠ ("main").toList ∧ Txt.lowerL b ≠ ("master").toList) ∧
    (∀ (branches : List (List Char)) (b : List Char),
        b ∈ Brain.bulk_branches_to_delete branches → b ≠ ("main").toList) := by
  constructor
  · intro keep branches b hb
    unfold Writer.delete_all_branches_deleted at hb
    rw [List.mem_filter] at hb
    have h2 := hb.2
    simp only [Bool.not_eq_true'] at h2
    refine ⟨fun he => ?_, fun he => ?_⟩
    · rw [he] at h2
      simp [Writer.keep_set] at h2
    · rw [he] at h2
      simp [Writer.keep_set] at h2
  · intro branches b hb
    unfold Brain.bulk_branches_to_delete at hb
    rw [List.mem_filter] at hb
    exact of_decide_eq_true hb.2

/-- A controller environment listing `main`, `master` and `dev`. -/
def c5env : Brain.BrainEnv :=
  { c7ok_env with
    branchList := .ok [("main").toList, ("master").toList, ("dev").toList] }

/-- A bulk-delete command naming only `main` as exception. -/
def c5ev : Brain.BrainEvent :=
  { repo_full_name := ("o/r").toList
    pr_number := ("1").toList
    is_pull_request := false
    user_message := some (("delete all branches except main").toList)
    user_comment := none
    sender_name := ("u").toList
    is_automatic_trigger := false
    commit_sha := none }

set_option maxRecDepth 10000 in
/-- C5 counterexample: the controller's bulk fast path matches
`delete all branches except main`, marks `master` for deletion, and
actually issues a delete invocation for `master` — the preserved set of
that path does not contain `master`. -/
theorem C5_counterexample :
    Brain.brain_bulk_match (("delete all branches except main").toList) = true ∧
    Brain.bulk_branches_to_delete
      [("main").toList, ("master").toList, ("dev").toList] =
      [("master").toList, ("dev").toList] ∧
    Brain.BEffect.writer (.deleteBranch (("o/r").toList) (("master").toList)) ∈
      (Brain.lambda_handler c5env c5ev).eff := by
  refine ⟨by decide, by decide, by decide⟩

/-- C5 witness: the writer keep set at concrete inputs (`Dev` deleted is
neither `main` nor `master`; the controller path only excludes
`main`). -/
theorem C5_bulk_delete_keep_set_amended_witness :
    (Txt.lowerL (("Dev").toList) ≠ ("main").toList ∧
     Txt.lowerL (("Dev").toList) ≠ ("master").toList) ∧
    ("master").toList ≠ ("main").toList :=
  ⟨C5_bulk_delete_keep_set_amended.1 [("keep-me").toList]
      [("main").toList, ("MASTER").toList, ("Dev").toList] (("Dev").toList)
      (by decide),
   C5_bulk_delete_keep_set_amended.2
      [("main").toList, ("master").toList, ("dev").toList] (("master").toList)
      (by decide)⟩

/-- A compound mention on an issue comment event. -/
def c10ev : Gateway.GEvent :=
  { hasRepository := true
    repo := ("o/r").toList
    commentBody := ("@pr-agent create branch test-v1 and update services/x.py").toList
    sender := ("u").toList
    issueNumber := some 5
    ref := none
    hasAfter := false
    pullRequest := none
    action := ("created").toList }

/-- A gateway oracle whose calls all succeed. -/
def c10env : Gateway.GEnv :=
  { prExists := fun _ => false
    call := fun _ => .ok () }

/-- C10 witness: the compound fast path at a concrete event under an
all-succeeding oracle. -/
theorem C10_compound_creates_branch_unconditionally_witness :
    (∃ rest, (Gateway.lambda_handler c10ev c10env).1 =
        Gateway.GEffect.createBranch c10ev.repo
          (Gateway.extract_branch (Txt.lowerL c10ev.commentBody)
            (("ai-branch-compound").toList)) (("main").toList) :: rest) ∧
    (Gateway.lambda_handler c10ev c10env).1 =
      [Gateway.GEffect.createBranch c10ev.repo
         (Gateway.extract_branch (Txt.lowerL c10ev.commentBody)
           (("ai-branch-compound").toList)) (("main").toList),
       Gateway.GEffect.postComment c10ev.repo
         (Txt.pyStrOptNat (Txt.pyOrNat c10ev.issueNumber none))
         (("✅ I\x27ve created the branch `").toList ++
           Gateway.extract_branch (Txt.lowerL c10ev.commentBody)
             (("ai-branch-compound").toList) ++
           ("` directly for you.").toList),
       Gateway.GEffect.postComment c10ev.repo
         (Txt.pyStrOptNat (Txt.pyOrNat c10ev.issueNumber none))
         (("⏳ **Analyzing code changes with Gemini 2.0...**").toList),
       Gateway.GEffect.invokeBrain
         { repo_full_name := c10ev.repo,
           pr_number := Txt.pyStrOptNat (Txt.pyOrNat c10ev.issueNumber none),
           user_message := none,
           user_comment := some (Txt.lowerL c10ev.commentBody),
           sender_name := c10ev.sender, is_pull_request := true,
           is_automatic_trigger := false, commit_sha := none }] := by
  have h := C10_compound_creates_branch_unconditionally c10ev c10env rfl rfl rfl
    (by decide) (by decide)
  exact ⟨h.1, h.2 (fun e => rfl)⟩
